import Mathlib

/-!
Verification development for the polling data-reconciliation core of the
nebulaguard-console repository: safe response decoding (`src/lib/safeFetch.ts`),
the change-aware merge of the Veeam polling hook
(`src/hooks/useVeeamBackupAndReplication.ts`), the pagination helper and the
multi-source per-tenant aggregator (`useGlobalInfrastructureMetrics`).

JavaScript values that flow through the decode pipeline are modelled by a
`Json` tree; JavaScript exceptions are modelled with the `Except String`
monad: a primitive that can throw (reading the body stream, `JSON.parse`)
is an `Except`-valued input carried by the modelled `Response`, and a
`try`/`catch` in the source is rendered as handling of the corresponding
`Except.error` case.  A function whose result is always `Except.ok` is one
that never raises to its caller.
-/

namespace NebulaGuard

/-- JSON value tree (a parsed JavaScript value).  Object fields keep their
order, as `JSON.stringify` is order sensitive. -/
inductive Json where
  | null : Json
  | bool : Bool → Json
  | num : Int → Json
  | str : String → Json
  | arr : List Json → Json
  | obj : List (String × Json) → Json

/-- Quote a string the way `JSON.stringify` does (escaping backslash and
double quote; other escapes do not occur in the values we manipulate). -/
def quoteStr (s : String) : String :=
  "\"" ++ ((s.replace "\\" "\\\\").replace "\"" "\\\"") ++ "\""

mutual

/-- Model of `JSON.stringify` on a parsed value. -/
def stringify : Json → String
  | Json.null => "null"
  | Json.bool true => "true"
  | Json.bool false => "false"
  | Json.num n => toString n
  | Json.str s => quoteStr s
  | Json.arr xs => "[" ++ stringifyList xs ++ "]"
  | Json.obj fs => "\x7b" ++ stringifyFields fs ++ "\x7d"

/-- Comma-separated serialization of an array's elements. -/
def stringifyList : List Json → String
  | [] => ""
  | [x] => stringify x
  | x :: y :: xs => stringify x ++ "," ++ stringifyList (y :: xs)

/-- Comma-separated serialization of an object's fields. -/
def stringifyFields : List (String × Json) → String
  | [] => ""
  | [(k, v)] => quoteStr k ++ ":" ++ stringify v
  | (k, v) :: f :: fs => quoteStr k ++ ":" ++ stringify v ++ "," ++ stringifyFields (f :: fs)

end

/-- `pat` is a prefix of `l` (character-list comparison). -/
def charsStartWith [BEq α] : List α → List α → Bool
  | [], _ => true
  | _ :: _, [] => false
  | a :: as, b :: bs => a == b && charsStartWith as bs

/-- `pat` occurs contiguously inside `l` (character-list comparison). -/
def charsContain [BEq α] (pat : List α) (l : List α) : Bool :=
  match l with
  | [] => charsStartWith pat []
  | _ :: rest => charsStartWith pat l || charsContain pat rest

/-- JavaScript `String.prototype.includes`: `s` contains `pat` as a
substring (the empty pattern is contained in every string, as in JS). -/
def jsIncludes (s pat : String) : Bool :=
  charsContain pat.toList s.toList

/-- JavaScript `String.prototype.trim`: strip leading and trailing
whitespace. -/
def jsTrim (s : String) : String :=
  String.mk (((s.toList.dropWhile Char.isWhitespace).reverse.dropWhile
    Char.isWhitespace).reverse)

/-- JavaScript `x || d` for strings: `d` when `s` is empty (falsy), else `s`. -/
def jsOrStr (s d : String) : String :=
  if s == "" then d else s

/-- JavaScript `x || d` where `x` may be `undefined` (modelled by `none`). -/
def jsOrOpt (s : Option String) (d : String) : String :=
  match s with
  | some v => jsOrStr v d
  | none => d

-- ── SafeResponseDecoder (src/lib/safeFetch.ts) ─────────────────────────────

/-- Model of the already-fetched `Response` consumed by `safeParseResponse`.
`textResult` is the outcome of `response.text()` (the body read can fail at
the stream level); `parseResult` is the outcome `JSON.parse` would have on
that body text (the parser is treated as an oracle supplied with the input,
`Except.error` carrying the parser's error message). -/
structure Response where
  status : Nat
  contentLength : Option String
  contentType : Option String
  textResult : Except String String
  parseResult : Except String Json
  url : String

/-- The WHATWG `Response.ok` flag: status in the 2xx range. -/
def Response.okFlag (r : Response) : Bool :=
  200 ≤ r.status && r.status ≤ 299

/-- `friendlyMessages.network` (src/lib/safeFetch.ts:36). -/
def friendlyNetwork : String := "Network error. Please check your connection and try again."

/-- `friendlyMessages.timeout` (src/lib/safeFetch.ts:37). -/
def friendlyTimeout : String := "The request timed out. Please try again."

/-- `friendlyMessages.unauthorized` (src/lib/safeFetch.ts:38). -/
def friendlyUnauthorized : String := "Your session has expired. Please log in again."

/-- `friendlyMessages.forbidden` (src/lib/safeFetch.ts:39). -/
def friendlyForbidden : String := "You don't have permission to access this resource."

/-- `friendlyMessages.notFound` (src/lib/safeFetch.ts:40). -/
def friendlyNotFound : String := "The requested resource was not found."

/-- `friendlyMessages.server` (src/lib/safeFetch.ts:41). -/
def friendlyServer : String := "Service is temporarily unavailable. Please try again later."

/-- `friendlyMessages.parse` (src/lib/safeFetch.ts:42). -/
def friendlyParse : String := "We received an unexpected response. Please try again."

/-- `friendlyMessages.empty` (src/lib/safeFetch.ts:43). -/
def friendlyEmpty : String := "No data available yet."

/-- `friendlyMessages.default` (src/lib/safeFetch.ts:44). -/
def friendlyDefault : String := "Something went wrong. Please try again."

/-- `getUserMessage` (src/lib/safeFetch.ts:47-57). -/
def getUserMessage (status : Nat) (isParseError : Bool) (isEmpty : Bool) : String :=
  if isEmpty then friendlyEmpty
  else if isParseError then friendlyParse
  else if status == 0 then friendlyNetwork
  else if status == 401 then friendlyUnauthorized
  else if status == 403 then friendlyForbidden
  else if status == 404 then friendlyNotFound
  else if status == 408 then friendlyTimeout
  else if 500 ≤ status then friendlyServer
  else friendlyDefault

/-- The fixed status→message table used for non-2xx failures (keys
network=0, 401, 403, 404, 408, 5xx, default of `friendlyMessages`). -/
def statusMessageTable : List String :=
  [friendlyNetwork, friendlyUnauthorized, friendlyForbidden, friendlyNotFound,
   friendlyTimeout, friendlyServer, friendlyDefault]

/-- Result record of `safeParseBody` (src/lib/safeFetch.ts:65-69). -/
structure BodyRes where
  data : Json
  isEmpty : Bool
  parseError : Option String

/-- `safeParseBody` (src/lib/safeFetch.ts:65-107).  The `try`/`catch`
around `response.text()` is the handling of the `textResult` error case;
the `try`/`catch` around `JSON.parse` is the handling of the `parseResult`
error case.  The codomain is `Except` so that an unhandled throw could
propagate; every path in fact returns `Except.ok`. -/
def safeParseBody (r : Response) : Except String BodyRes :=
  if r.status == 204 || r.contentLength == some "0" then
    pure { data := Json.null, isEmpty := true, parseError := none }
  else
    match r.textResult with
    | Except.error _ =>
        pure { data := Json.null, isEmpty := true, parseError := some "Could not read response body" }
    | Except.ok text =>
        if jsTrim text == "" then
          pure { data := Json.null, isEmpty := true, parseError := none }
        else
          let contentType := jsOrOpt r.contentType ""
          if jsIncludes contentType "application/json"
              || (jsTrim text).startsWith "\x7b" || (jsTrim text).startsWith "[" then
            match r.parseResult with
            | Except.ok v => pure { data := v, isEmpty := false, parseError := none }
            | Except.error msg =>
                let snippet := if text.length > 200 then text.take 200 ++ "…" else text
                pure { data := Json.null, isEmpty := false,
                       parseError := some ("JSON parse error: " ++ msg ++ ". Body snippet: " ++ snippet) }
          else
            pure { data := Json.str text, isEmpty := false, parseError := none }

/-- `SafeFetchResult` discriminated union (src/lib/safeFetch.ts:13-31):
`success` is `ok:true` (data, status); `failure` is `ok:false`
(status, userMessage, debug). -/
inductive SafeFetchResult where
  | success : Json → Nat → SafeFetchResult
  | failure : Nat → String → String → SafeFetchResult

/-- `safeParseResponse` (src/lib/safeFetch.ts:121-158).  `url` is the
optional second argument.  An error raised by `safeParseBody` would
propagate (there is no `try`/`catch` here). -/
def safeParseResponse (r : Response) (url : Option String) : Except String SafeFetchResult := do
  let b ← safeParseBody r
  if !(r.okFlag) then
    let bodyPart :=
      match b.parseError with
      | some pe => pe
      | none => jsOrStr ((stringify b.data).take 300) "(empty)"
    let debug := "HTTP " ++ toString r.status ++ " from " ++ jsOrOpt url r.url
      ++ ". Body: " ++ bodyPart
    pure (SafeFetchResult.failure r.status (getUserMessage r.status false false) debug)
  else
    match b.parseError with
    | some pe =>
        pure (SafeFetchResult.failure r.status (getUserMessage r.status true false) pe)
    | none =>
        if b.isEmpty then
          pure (SafeFetchResult.success Json.null r.status)
        else
          pure (SafeFetchResult.success b.data r.status)

/-- `networkError` (src/lib/safeFetch.ts:163-174): wraps a thrown network
call into the same failure shape with status 0. -/
def networkError (errMessage : String) (url : Option String) : SafeFetchResult :=
  SafeFetchResult.failure 0 (getUserMessage 0 false false)
    ("Network error for " ++ jsOrOpt url "unknown URL" ++ ": " ++ errMessage)

-- ── JavaScript Map model ───────────────────────────────────────────────────

/-- `Map.prototype.get`: the value stored under `k`, if any.  A JavaScript
`Map` is modelled as an insertion-ordered association list with unique keys. -/
def jsGet [BEq κ] (m : List (κ × α)) (k : κ) : Option α :=
  (m.find? (fun p => p.1 == k)).map (fun p => p.2)

/-- `Map.prototype.has`. -/
def jsHas [BEq κ] (m : List (κ × α)) (k : κ) : Bool :=
  m.any (fun p => p.1 == k)

/-- `Map.prototype.set`: replaces the value in place when the key exists
(keeping its insertion position), appends a new entry otherwise. -/
def jsSet [BEq κ] (m : List (κ × α)) (k : κ) (v : α) : List (κ × α) :=
  if jsHas m k then m.map (fun p => if p.1 == k then (k, v) else p)
  else m ++ [(k, v)]

-- ── PollingFetcher / ChangeAwareMerger (useVeeamBackupAndReplication.ts) ───

/-- A `TransformedVeeamJob` as held by the merge working set.  `ref` models
the JavaScript object identity (reference) of the record, which
`JSON.stringify` does not observe; `id` is the record's identity key
(`dedupe_key`); `lastRun` is `lastRun.getTime()` in epoch milliseconds;
`val` is the remaining serialized content of the record. -/
structure TJob where
  ref : Nat
  id : String
  lastRun : Int
  val : Json

/-- `JSON.stringify` applied to a whole transformed job: all jobs are built
by `transformVeeamJob` with the same field order, so the serialization is
determined by (and determines, for our purposes) the identity key, the
`lastRun` timestamp and the remaining content — never the reference. -/
def stringifyJob (j : TJob) : String :=
  stringify (Json.obj [("id", Json.str j.id), ("lastRun", Json.num j.lastRun), ("value", j.val)])

/-- One step of the smart merge (useVeeamBackupAndReplication.ts:172-179):
look the incoming job's id up in the previous map; adopt the incoming
object when there is no previous record or the serializations differ,
otherwise keep the existing reference. -/
def mergeStep (prevMap : List (String × TJob)) (acc : List (String × TJob)) (job : TJob) :
    List (String × TJob) :=
  match jsGet prevMap job.id with
  | some existing =>
      if stringifyJob existing != stringifyJob job then jsSet acc job.id job
      else jsSet acc job.id existing
  | none => jsSet acc job.id job

/-- The smart merge (useVeeamBackupAndReplication.ts:170-181): fold the
freshly transformed jobs into a new map, comparing each against the
previous map `jobsMapRef.current`. -/
def smartMerge (prevMap : List (String × TJob)) (fresh : List TJob) : List (String × TJob) :=
  fresh.foldl (mergeStep prevMap) []

/-- `Array.from(newJobsMap.values()).sort((a, b) => b.lastRun - a.lastRun)`
(useVeeamBackupAndReplication.ts:183-185): most-recent-first, stable. -/
def sortJobs (jobs : List TJob) : List TJob :=
  jobs.mergeSort (fun a b => decide (b.lastRun ≤ a.lastRun))

/-- The published collection: sorted values of the merged map. -/
def publishJobs (m : List (String × TJob)) : List TJob :=
  sortJobs (m.map Prod.snd)

/-- The React state owned by `useVeeamBackupAndReplication` together with
the `jobsMapRef` working set. -/
structure VeeamHookState where
  jobsMap : List (String × TJob)
  jobs : List TJob
  loading : Bool
  error : Option String
  isConnected : Bool
  lastUpdated : Option Int

/-- One run of `fetchJobs(silent)` (useVeeamBackupAndReplication.ts:147-200)
as a state transition.  `attempt` is the outcome of the `try` block's
fetch/status-check/`response.json()`/transform prefix: `Except.error msg`
when any of those threw (network failure, the explicit
`HTTP error! status: N` throw on a non-ok response, or a JSON parse
failure), `Except.ok (fresh, now)` with the transformed jobs and the
current time otherwise.  On success the merge, sort and publishes run; on
failure the `catch` block runs: the error message is stored only when not
silent, connectivity drops, and all other state is kept. -/
def fetchJobs (s : VeeamHookState) (silent : Bool)
    (attempt : Except String (List TJob × Int)) : VeeamHookState :=
  match attempt with
  | Except.ok (fresh, now) =>
      let newMap := smartMerge s.jobsMap fresh
      { jobsMap := newMap
        jobs := publishJobs newMap
        loading := if silent then s.loading else false
        error := none
        isConnected := true
        lastUpdated := some now }
  | Except.error msg =>
      { s with
        loading := if silent then s.loading else false
        error := if silent then s.error else some msg
        isConnected := false }

-- ── FilterPaginationEngine (usePaginatedList, part_006:171-194) ────────────

/-- `PAGE_SIZE` (part_006:169). -/
def PAGE_SIZE : Nat := 8

/-- `Math.max(1, Math.ceil(items.length / PAGE_SIZE))` (part_006:173). -/
def totalPagesFor (totalItems : Nat) : Nat :=
  max 1 ((totalItems + PAGE_SIZE - 1) / PAGE_SIZE)

/-- The recompute effect (part_006:175-177): clamp `currentPage` down to
`totalPages` when it exceeds it; leave it unchanged otherwise. -/
def clampPage (currentPage : Int) (totalItems : Nat) : Int :=
  if (totalPagesFor totalItems : Int) < currentPage then (totalPagesFor totalItems : Int)
  else currentPage

/-- The stable value of `currentPage` after `setCurrentPage(requested)`:
the raw `useState` setter stores `requested` verbatim, then the recompute
effect clamps it. -/
def setCurrentPage (requested : Int) (totalItems : Nat) : Int :=
  clampPage requested totalItems

/-- JavaScript `Array.prototype.slice` index resolution: negative indices
count from the end, indices are clamped to the array bounds. -/
def jsSliceIndex (len : Nat) (i : Int) : Nat :=
  if i < 0 then ((len : Int) + i).toNat else min i.toNat len

/-- JavaScript `Array.prototype.slice(a, b)`. -/
def jsSlice (l : List α) (a b : Int) : List α :=
  let s := jsSliceIndex l.length a
  let e := jsSliceIndex l.length b
  (l.drop s).take (e - s)

/-- `paginatedItems` (part_006:179-182): `items.slice(start, start + PAGE_SIZE)`
with `start = (currentPage - 1) * PAGE_SIZE`. -/
def paginatedItems (items : List α) (currentPage : Int) : List α :=
  jsSlice items ((currentPage - 1) * (PAGE_SIZE : Int))
    ((currentPage - 1) * (PAGE_SIZE : Int) + (PAGE_SIZE : Int))

-- ── MultiSourceAggregator (useGlobalInfrastructureMetrics, part_006) ───────

/-- Field access `obj?.k`: `none` models `undefined` (missing field or
non-object receiver). -/
def jget : Json → String → Option Json
  | Json.obj fs, k => (fs.find? (fun p => p.1 == k)).map (fun p => p.2)
  | _, _ => none

/-- Optional chaining `v?.k` on an already optional value. -/
def optChain (v : Option Json) (k : String) : Option Json :=
  match v with
  | some j => jget j k
  | none => none

/-- JavaScript nullish test: `undefined` or `null`. -/
def nullish : Option Json → Bool
  | none => true
  | some Json.null => true
  | some _ => false

/-- Nullish coalescing `a ?? b`. -/
def coalesce (a b : Option Json) : Option Json :=
  if nullish a then b else a

/-- JavaScript truthiness of a value (`undefined` is falsy). -/
def truthy : Option Json → Bool
  | none => false
  | some Json.null => false
  | some (Json.bool b) => b
  | some (Json.num n) => !(n == 0)
  | some (Json.str s) => !(s == "")
  | some (Json.arr _) => true
  | some (Json.obj _) => true

/-- Strict equality `v === lit` against a string literal: true only for the
identical string. -/
def strictEqStr (v : Option Json) (s : String) : Bool :=
  match v with
  | some (Json.str t) => t == s
  | _ => false

/-- Strict equality `v === n` against a number literal. -/
def strictEqNum (v : Option Json) (n : Int) : Bool :=
  match v with
  | some (Json.num k) => k == n
  | _ => false

mutual

/-- JavaScript `String(v)` coercion. -/
def jsToString : Json → String
  | Json.null => "null"
  | Json.bool true => "true"
  | Json.bool false => "false"
  | Json.num n => toString n
  | Json.str s => s
  | Json.arr xs => jsToStringList xs
  | Json.obj _ => "[object Object]"

/-- `Array.prototype.toString`: elements joined by commas. -/
def jsToStringList : List Json → String
  | [] => ""
  | [x] => jsToString x
  | x :: y :: xs => jsToString x ++ "," ++ jsToStringList (y :: xs)

end

/-- `toNumber` (part_006:555-558): `Number(v)` with non-finite results
mapped to 0.  `Number` of a non-numeric string or of an object is `NaN`,
hence 0 here; this model parses only integral strings, the shapes the
aggregated counters use. -/
def toNumber (v : Json) : Int :=
  match v with
  | Json.null => 0
  | Json.bool b => if b then 1 else 0
  | Json.num n => n
  | Json.str s => ((jsTrim s).toInt?).getD 0
  | Json.arr _ => 0
  | Json.obj _ => 0

/-- `getClientId` (part_006:560-562): `toNumber(obj?.client_id ?? obj?.clientId ?? 0)`. -/
def getClientId (obj : Json) : Int :=
  toNumber
    (match coalesce (coalesce (jget obj "client_id") (jget obj "clientId"))
        (some (Json.num 0)) with
     | some v => v
     | none => Json.num 0)

/-- `normSev` (part_006:564): `String(v ?? "").toLowerCase().trim()`. -/
def normSev (v : Option Json) : String :=
  jsTrim (jsToString
    (match coalesce v (some (Json.str "")) with
     | some j => j
     | none => Json.str "")).toLower

/-- The `Organization` records consumed by the aggregator.  The type is
imported from a module that only declares it; the four fields are exactly
those the hook reads (`o.id`, `o.name`, `o.clientId`, `o.status`). -/
structure Organization where
  id : String
  name : String
  clientId : Int
  status : String
deriving DecidableEq

/-- A per-tenant counter bundle, the value type of `orgMetricsMap`
(part_006:648-653).  Counters start at zero and are only incremented, so
they are natural numbers. -/
structure OrgEntry where
  alerts : Nat
  activeAlerts : Nat
  criticalAlerts : Nat
  hosts : Nat
  enabledHosts : Nat
  reports : Nat
  insights : Nat
  veeamJobs : Nat
  veeamSuccess : Nat
  veeamFailed : Nat
deriving DecidableEq

/-- The zero-valued counter bundle used to initialize registry entries. -/
def zeroEntry : OrgEntry :=
  { alerts := 0, activeAlerts := 0, criticalAlerts := 0,
    hosts := 0, enabledHosts := 0,
    reports := 0, insights := 0,
    veeamJobs := 0, veeamSuccess := 0, veeamFailed := 0 }

/-- `clientIdToOrg` (part_006:608-614): a map from positive client id to
organization, later entries overwriting earlier ones with the same id. -/
def clientIdToOrg (orgs : List Organization) : List (Int × Organization) :=
  orgs.foldl (fun m o => if 0 < o.clientId then jsSet m o.clientId o else m) []

/-- `orgsWithClientId` (part_006:616-619). -/
def orgsWithClientId (orgs : List Organization) : List Organization :=
  orgs.filter (fun o => 0 < o.clientId)

/-- The zero-row initialization of `newMap` (part_006:655-663): one zero
entry per organization with a positive client id. -/
def initOrgMap (orgs : List Organization) : List (Int × OrgEntry) :=
  (orgsWithClientId orgs).foldl (fun m o => jsSet m o.clientId zeroEntry) []

/-- `ensureEntry` (part_006:665-674): add a zero entry for a client id seen
in a record when it is registered but not yet in the map. -/
def ensureEntry (cidOrg : List (Int × Organization)) (m : List (Int × OrgEntry))
    (cid : Int) : List (Int × OrgEntry) :=
  if !(jsHas m cid) && jsHas cidOrg cid then jsSet m cid zeroEntry else m

/-- Shared prefix of every per-record fold step (part_006:680-685 etc.):
resolve the client id, skip non-positive ones, ensure a registry entry,
then update the entry found in the map (if any) with `upd`. -/
def recordStep (cidOrg : List (Int × Organization)) (upd : Json → OrgEntry → OrgEntry)
    (m : List (Int × OrgEntry)) (a : Json) : List (Int × OrgEntry) :=
  let cid := getClientId a
  if cid ≤ 0 then m
  else
    let m := ensureEntry cidOrg m cid
    match jsGet m cid with
    | none => m
    | some entry => jsSet m cid (upd a entry)

/-- The alerts fold body (part_006:680-691). -/
def alertUpdate (a : Json) (entry : OrgEntry) : OrgEntry :=
  let entry := { entry with alerts := entry.alerts + 1 }
  let isActive := !(truthy (jget a "acknowledged")) && !(strictEqStr (jget a "status") "resolved")
  let entry := if isActive then { entry with activeAlerts := entry.activeAlerts + 1 } else entry
  let sev := normSev (jget a "severity")
  if sev == "critical" || sev == "disaster" then
    { entry with criticalAlerts := entry.criticalAlerts + 1 }
  else entry

/-- The hosts fold body (part_006:699-707). -/
def hostUpdate (h : Json) (entry : OrgEntry) : OrgEntry :=
  let entry := { entry with hosts := entry.hosts + 1 }
  if strictEqNum (jget h "status") 0 then
    { entry with enabledHosts := entry.enabledHosts + 1 }
  else entry

/-- The reports fold body (part_006:715-721). -/
def reportUpdate (_ : Json) (entry : OrgEntry) : OrgEntry :=
  { entry with reports := entry.reports + 1 }

/-- The insights fold body (part_006:729-735). -/
def insightUpdate (_ : Json) (entry : OrgEntry) : OrgEntry :=
  { entry with insights := entry.insights + 1 }

/-- The veeam fold body (part_006:746-756). -/
def veeamUpdate (m : Json) (entry : OrgEntry) : OrgEntry :=
  let jobsLen := match jget m "jobs" with
    | some (Json.arr js) => js.length
    | _ => 0
  let entry := { entry with veeamJobs := entry.veeamJobs + jobsLen }
  let status := (jsToString
    (match coalesce (optChain (jget m "protectionSummary") "overallStatus")
        (some (Json.str "")) with
     | some j => j
     | none => Json.str "")).toLower
  let entry := if jsIncludes status "success" then
      { entry with veeamSuccess := entry.veeamSuccess + 1 }
    else entry
  if jsIncludes status "fail" || jsIncludes status "error" then
    { entry with veeamFailed := entry.veeamFailed + 1 }
  else entry

/-- The guard around each per-source block (part_006:677-679 etc.):
`res?.ok`, then `safeParseResponse`, then `parsed.ok && Array.isArray(parsed.data)`.
Returns the record array to fold when all three hold.  An exception from
`safeParseResponse` would propagate to `fetchAll`'s own `catch`. -/
def sourceItems (res : Option Response) : Except String (Option (List Json)) := do
  match res with
  | none => pure none
  | some r =>
      if r.okFlag then do
        let parsed ← safeParseResponse r none
        match parsed with
        | SafeFetchResult.success (Json.arr items) _ => pure (some items)
        | _ => pure none
      else pure none

/-- The veeam block additionally unwraps the `[mainObj, metaObj]` response
shape and folds over `mainObj.matched` when it is an array (part_006:742-746). -/
def veeamItems (items : List Json) : List Json :=
  let mainObj := match items.head? with
    | some j => (match coalesce (some j) (some (Json.obj [])) with
        | some v => v
        | none => Json.obj [])
    | none => Json.obj []
  match jget mainObj "matched" with
  | some (Json.arr ms) => ms
  | _ => []

/-- The settled outcomes of the five parallel source requests
(part_006:639-646); `none` models a request whose promise rejected and was
replaced by `null` via `.catch(() => null)`. -/
structure GlobalFetchInputs where
  alertsRes : Option Response
  hostsRes : Option Response
  reportsRes : Option Response
  insightsRes : Option Response
  veeamRes : Option Response

/-- The React state of `useGlobalInfrastructureMetrics` touched by `fetchAll`. -/
structure GlobalState where
  orgMetricsMap : List (Int × OrgEntry)
  error : Option String
  lastUpdated : Option Int
  loading : Bool
deriving DecidableEq

/-- All five sources contributed nothing this cycle: every per-source guard
declined (request rejected, non-2xx response, decode failure, or a body
that is not a JSON array). -/
def allSourcesFailed (inp : GlobalFetchInputs) : Prop :=
  sourceItems inp.alertsRes = Except.ok none ∧
  sourceItems inp.hostsRes = Except.ok none ∧
  sourceItems inp.reportsRes = Except.ok none ∧
  sourceItems inp.insightsRes = Except.ok none ∧
  sourceItems inp.veeamRes = Except.ok none

/-- The tenant with client id `k` is absent from every source response this
cycle: whatever record array each per-source guard accepted (sources may
succeed or fail independently), no folded record resolves to `k` — for the
veeam source the folded records are the `matched` array. -/
def clientAbsent (inp : GlobalFetchInputs) (k : Int) : Prop :=
  (∀ items, sourceItems inp.alertsRes = Except.ok (some items) →
    ∀ a ∈ items, getClientId a ≠ k) ∧
  (∀ items, sourceItems inp.hostsRes = Except.ok (some items) →
    ∀ a ∈ items, getClientId a ≠ k) ∧
  (∀ items, sourceItems inp.reportsRes = Except.ok (some items) →
    ∀ a ∈ items, getClientId a ≠ k) ∧
  (∀ items, sourceItems inp.insightsRes = Except.ok (some items) →
    ∀ a ∈ items, getClientId a ≠ k) ∧
  (∀ items, sourceItems inp.veeamRes = Except.ok (some items) →
    ∀ a ∈ veeamItems items, getClientId a ≠ k)

/-- One per-source stage of `fetchAll`'s map building, named for proofs:
fold the source's records when the guard accepted them, keep the map
otherwise (definitionally equal to the `match` inlined in `fetchAll`). -/
def foldSource (cidOrg : List (Int × Organization)) (upd : Json → OrgEntry → OrgEntry)
    (o : Option (List Json)) (m : List (Int × OrgEntry)) : List (Int × OrgEntry) :=
  match o with
  | some items => items.foldl (recordStep cidOrg upd) m
  | none => m

/-- The veeam stage, which folds over the unwrapped `matched` array. -/
def foldSourceVeeam (cidOrg : List (Int × Organization))
    (o : Option (List Json)) (m : List (Int × OrgEntry)) : List (Int × OrgEntry) :=
  match o with
  | some items => (veeamItems items).foldl (recordStep cidOrg veeamUpdate) m
  | none => m

/-- One run of `fetchAll(silent)` (part_006:621-772) as a state transition
over the settled request outcomes.  The early return fires when no
organization has a positive client id; otherwise the map is rebuilt from
the zero-initialized registry map, each available source is folded in, and
on completing the `try` block the error is cleared and `lastUpdated` set.
The `catch` stores the thrown message (the `AbortError` filter is inert
here because, as proved below, the body never throws). -/
def fetchAll (orgs : List Organization) (s : GlobalState) (silent : Bool)
    (inp : GlobalFetchInputs) (now : Int) : Except String GlobalState :=
  if (orgsWithClientId orgs).isEmpty then pure s
  else
    tryCatch
      (do
        let cidOrg := clientIdToOrg orgs
        let m0 := initOrgMap orgs
        let oAlerts ← sourceItems inp.alertsRes
        let m1 := match oAlerts with
          | some items => items.foldl (recordStep cidOrg alertUpdate) m0
          | none => m0
        let oHosts ← sourceItems inp.hostsRes
        let m2 := match oHosts with
          | some items => items.foldl (recordStep cidOrg hostUpdate) m1
          | none => m1
        let oReports ← sourceItems inp.reportsRes
        let m3 := match oReports with
          | some items => items.foldl (recordStep cidOrg reportUpdate) m2
          | none => m2
        let oInsights ← sourceItems inp.insightsRes
        let m4 := match oInsights with
          | some items => items.foldl (recordStep cidOrg insightUpdate) m3
          | none => m3
        let oVeeam ← sourceItems inp.veeamRes
        let m5 := match oVeeam with
          | some items => (veeamItems items).foldl (recordStep cidOrg veeamUpdate) m4
          | none => m4
        pure { orgMetricsMap := m5
               error := none
               lastUpdated := some now
               loading := if silent then s.loading else false })
      (fun msg =>
        pure { s with
               error := some msg
               loading := if silent then s.loading else false })

/-- One `OrgMetricsRow` (part_006:508-523). -/
structure OrgMetricsRow where
  orgId : String
  orgName : String
  clientId : Int
  status : String
  alerts : Nat
  activeAlerts : Nat
  criticalAlerts : Nat
  hosts : Nat
  enabledHosts : Nat
  reports : Nat
  insights : Nat
  veeamJobs : Nat
  veeamSuccess : Nat
  veeamFailed : Nat
deriving DecidableEq

/-- The row built for a registered organization from its counters
(part_006:797-812). -/
def rowOf (o : Organization) (e : OrgEntry) : OrgMetricsRow :=
  { orgId := o.id, orgName := o.name, clientId := o.clientId, status := o.status,
    alerts := e.alerts, activeAlerts := e.activeAlerts, criticalAlerts := e.criticalAlerts,
    hosts := e.hosts, enabledHosts := e.enabledHosts,
    reports := e.reports, insights := e.insights,
    veeamJobs := e.veeamJobs, veeamSuccess := e.veeamSuccess, veeamFailed := e.veeamFailed }

/-- The zero row appended for an organization without a client id
(part_006:817-822). -/
def zeroRow (o : Organization) : OrgMetricsRow :=
  { orgId := o.id, orgName := o.name, clientId := 0, status := o.status,
    alerts := 0, activeAlerts := 0, criticalAlerts := 0,
    hosts := 0, enabledHosts := 0, reports := 0, insights := 0,
    veeamJobs := 0, veeamSuccess := 0, veeamFailed := 0 }

/-- `orgRows` (part_006:792-826): one row per map entry whose client id is
registered, then zero rows for organizations without a client id that have
no row yet, sorted by organization name (`localeCompare` modelled as
code-point order). -/
def orgRows (orgs : List Organization) (m : List (Int × OrgEntry)) : List OrgMetricsRow :=
  let cidOrg := clientIdToOrg orgs
  let rows := m.foldl (fun rows p =>
    match jsGet cidOrg p.1 with
    | none => rows
    | some org => rows ++ [rowOf org p.2]) []
  let rows := orgs.foldl (fun rows o =>
    if o.clientId ≤ 0 && !(rows.any (fun r => r.orgId == o.id)) then rows ++ [zeroRow o]
    else rows) rows
  rows.mergeSort (fun a b => decide (a.orgName ≤ b.orgName))

-- ── Concrete sample inputs used by witnesses and counterexamples ───────────

/-- A 404 response carrying a body and a URL. -/
def resp404 : Response :=
  { status := 404, contentLength := none, contentType := some "text/html",
    textResult := Except.ok "page missing", parseResult := Except.error "Unexpected token p",
    url := "https://example.test/things" }

/-- A 2xx response whose body read fails at the stream level. -/
def respReadFail : Response :=
  { status := 200, contentLength := none, contentType := some "application/json",
    textResult := Except.error "stream reset", parseResult := Except.error "unreached",
    url := "https://example.test/api" }

/-- A hook state holding one published record and no error. -/
def sampleVeeamState : VeeamHookState :=
  { jobsMap := [("job-a", { ref := 1, id := "job-a", lastRun := 100, val := Json.null })],
    jobs := [{ ref := 1, id := "job-a", lastRun := 100, val := Json.null }],
    loading := false, error := none, isConnected := true, lastUpdated := some 50 }

/-- A two-record previous merge working set. -/
def samplePrevMap : List (String × TJob) :=
  [("a", { ref := 1, id := "a", lastRun := 10, val := Json.str "x" }),
   ("b", { ref := 2, id := "b", lastRun := 20, val := Json.str "y" })]

/-- A fresh collection containing two records with the same identity key. -/
def sampleDupFresh : List TJob :=
  [{ ref := 7, id := "a", lastRun := 11, val := Json.str "x1" },
   { ref := 8, id := "a", lastRun := 12, val := Json.str "x2" },
   { ref := 9, id := "b", lastRun := 20, val := Json.str "y" }]

/-- A registered organization with a positive client id. -/
def sampleOrg1 : Organization :=
  { id := "org-1", name := "Acme", clientId := 7, status := "active" }

/-- A registered organization without a client id. -/
def sampleOrg2 : Organization :=
  { id := "org-2", name := "Globex", clientId := 0, status := "trial" }

/-- A two-organization registry: one with a client id, one without. -/
def sampleOrgs : List Organization := [sampleOrg1, sampleOrg2]

/-- An aggregator state holding previously computed non-zero counters. -/
def sampleGlobalState : GlobalState :=
  { orgMetricsMap := [(7, { zeroEntry with alerts := 5, criticalAlerts := 2 })],
    error := some "previous failure", lastUpdated := some 40, loading := false }

/-- All five source requests rejected (`.catch(() => null)` produced null). -/
def allRejectedInputs : GlobalFetchInputs :=
  { alertsRes := none, hostsRes := none, reportsRes := none,
    insightsRes := none, veeamRes := none }

/-- A second registered organization with a positive client id, used to
exercise a cycle in which one source succeeds for a different tenant. -/
def sampleOrg3 : Organization :=
  { id := "org-3", name := "Initech", clientId := 9, status := "active" }

/-- A registry with two positive-client organizations. -/
def sampleOrgsTwoClients : List Organization := [sampleOrg1, sampleOrg3]

/-- A successful alerts response carrying one record for client id 7. -/
def respAlertsFor7 : Response :=
  { status := 200, contentLength := none, contentType := some "application/json",
    textResult := Except.ok "[\x7b\"client_id\":7,\"severity\":\"critical\"\x7d]",
    parseResult := Except.ok (Json.arr
      [Json.obj [("client_id", Json.num 7), ("severity", Json.str "critical")]]),
    url := "https://example.test/alerts" }

/-- A cycle in which the alerts source succeeds (with a record for client
id 7) and the other four sources fail. -/
def partialInputs : GlobalFetchInputs :=
  { alertsRes := some respAlertsFor7, hostsRes := none, reportsRes := none,
    insightsRes := none, veeamRes := none }

-- ── Helper lemmas ──────────────────────────────────────────────────────────

/-- Every path of `safeParseBody` handles its throwing primitive: the body
parse never propagates an exception. -/
theorem safeParseBody_isOk (r : Response) : ∃ b, safeParseBody r = Except.ok b := by
  unfold safeParseBody
  repeat' first
    | exact ⟨_, rfl⟩
    | split
    | dsimp only

/-- A status outside the 2xx range makes the platform `ok` flag false. -/
theorem okFlag_false_of_non2xx (r : Response) (h : r.status < 200 ∨ 299 < r.status) :
    r.okFlag = false := by
  unfold Response.okFlag
  rcases h with h | h
  · simp [Nat.not_le_of_lt h]
  · have : ¬ (r.status ≤ 299) := by omega
    simp [this]

/-- A 2xx status makes the platform `ok` flag true. -/
theorem okFlag_true_of_2xx (r : Response) (h200 : 200 ≤ r.status) (h299 : r.status ≤ 299) :
    r.okFlag = true := by
  simp [Response.okFlag, h200, h299]

/-- The non-2xx message selection always lands in the fixed table. -/
theorem getUserMessage_mem_table (status : Nat) :
    getUserMessage status false false ∈ statusMessageTable := by
  unfold getUserMessage
  split_ifs <;> simp_all [statusMessageTable]

/-- Lookup distributes over cons. -/
theorem jsGet_cons [BEq κ] (a : κ) (b : α) (t : List (κ × α)) (k : κ) :
    jsGet ((a, b) :: t) k = if a == k then some b else jsGet t k := by
  cases h : a == k <;> simp [jsGet, List.find?_cons, h]

/-- Key-membership distributes over cons. -/
theorem jsHas_cons [BEq κ] (a : κ) (b : α) (t : List (κ × α)) (k : κ) :
    jsHas ((a, b) :: t) k = (a == k || jsHas t k) := by
  simp [jsHas]

/-- `Map.set` on a fresh key appends the entry. -/
theorem jsSet_of_not_has [BEq κ] (m : List (κ × α)) (k : κ) (v : α)
    (h : jsHas m k = false) : jsSet m k v = m ++ [(k, v)] := by
  unfold jsSet
  rw [h]
  rfl

/-- Replacing in place finds the new value when the key was present. -/
theorem jsGet_mapReplace_self [BEq κ] [LawfulBEq κ] (m : List (κ × α)) (k : κ) (v : α)
    (h : jsHas m k = true) :
    jsGet (m.map (fun p => if p.1 == k then (k, v) else p)) k = some v := by
  induction m with
  | nil => simp [jsHas] at h
  | cons p t ih =>
      obtain ⟨a, b⟩ := p
      cases ha : a == k with
      | true => simp [jsGet_cons, ha]
      | false =>
          rw [jsHas_cons, ha, Bool.false_or] at h
          simpa [jsGet_cons, ha] using ih h

/-- Replacing in place does not affect other keys. -/
theorem jsGet_mapReplace_ne [BEq κ] [LawfulBEq κ] (m : List (κ × α)) (k k' : κ) (v : α)
    (hne : k' ≠ k) :
    jsGet (m.map (fun p => if p.1 == k then (k, v) else p)) k' = jsGet m k' := by
  induction m with
  | nil => rfl
  | cons p t ih =>
      obtain ⟨a, b⟩ := p
      cases ha : a == k with
      | true =>
          have hak : a = k := eq_of_beq ha
          have h1 : (k == k') = false := by
            simp only [beq_eq_false_iff_ne]
            exact fun hkk => hne hkk.symm
          subst hak
          simp [jsGet_cons, ha, h1, ih]
      | false => simp [jsGet_cons, ha, ih]

/-- Lookup past a block of entries that all miss the key. -/
theorem jsGet_append_right [BEq κ] (m l : List (κ × α)) (k : κ)
    (h : jsHas m k = false) : jsGet (m ++ l) k = jsGet l k := by
  induction m with
  | nil => simp
  | cons p t ih =>
      obtain ⟨a, b⟩ := p
      rw [jsHas_cons] at h
      have ha : (a == k) = false := by
        cases hx : a == k
        · rfl
        · rw [hx] at h
          simp at h
      have ht : jsHas t k = false := by
        rw [ha] at h
        simpa using h
      rw [List.cons_append, jsGet_cons, ha]
      simpa using ih ht

/-- Appending an entry for a different key does not affect lookup. -/
theorem jsGet_append_single_ne [BEq κ] (m : List (κ × α)) (k k' : κ) (v : α)
    (h : (k == k') = false) : jsGet (m ++ [(k, v)]) k' = jsGet m k' := by
  induction m with
  | nil => simp [jsGet_cons, h, jsGet]
  | cons p t ih =>
      obtain ⟨a, b⟩ := p
      rw [List.cons_append, jsGet_cons, jsGet_cons]
      cases hak' : a == k' with
      | true => simp
      | false => simpa using ih

/-- `Map.set` then `get` at the same key yields the stored value. -/
theorem jsGet_jsSet_self [BEq κ] [LawfulBEq κ] (m : List (κ × α)) (k : κ) (v : α) :
    jsGet (jsSet m k v) k = some v := by
  unfold jsSet
  cases h : jsHas m k with
  | true =>
      rw [if_pos rfl]
      exact jsGet_mapReplace_self m k v h
  | false =>
      rw [if_neg Bool.false_ne_true]
      rw [jsGet_append_right m [(k, v)] k h, jsGet_cons]
      simp

/-- `Map.set` then `get` at a different key is unchanged. -/
theorem jsGet_jsSet_ne [BEq κ] [LawfulBEq κ] (m : List (κ × α)) (k k' : κ) (v : α)
    (hne : k' ≠ k) : jsGet (jsSet m k v) k' = jsGet m k' := by
  unfold jsSet
  cases h : jsHas m k with
  | true =>
      rw [if_pos rfl]
      exact jsGet_mapReplace_ne m k k' v hne
  | false =>
      rw [if_neg Bool.false_ne_true]
      refine jsGet_append_single_ne m k k' v ?_
      simp only [beq_eq_false_iff_ne]
      exact fun hkk => hne hkk.symm

/-- Replacing a value in place never changes the key sequence. -/
theorem mapReplace_keys [BEq κ] [LawfulBEq κ] (m : List (κ × α)) (k : κ) (v : α) :
    (m.map (fun p => if p.1 == k then (k, v) else p)).map Prod.fst = m.map Prod.fst := by
  induction m with
  | nil => rfl
  | cons p t ih =>
      obtain ⟨a, b⟩ := p
      cases ha : a == k with
      | true =>
          have hak : a = k := eq_of_beq ha
          simp [ha, hak, ih]
      | false => simp [ha, ih]

/-- `Map.set` keeps the existing key sequence when the key is present and
appends it otherwise. -/
theorem jsSet_keys [BEq κ] [LawfulBEq κ] (m : List (κ × α)) (k : κ) (v : α) :
    (jsSet m k v).map Prod.fst =
      if jsHas m k then m.map Prod.fst else m.map Prod.fst ++ [k] := by
  unfold jsSet
  cases h : jsHas m k with
  | true =>
      rw [if_pos rfl, if_pos rfl]
      exact mapReplace_keys m k v
  | false =>
      rw [if_neg Bool.false_ne_true, if_neg Bool.false_ne_true]
      simp

/-- `Map.set` preserves distinctness of keys. -/
theorem jsSet_keys_nodup [BEq κ] [LawfulBEq κ] (m : List (κ × α)) (k : κ) (v : α)
    (h : (m.map Prod.fst).Nodup) : ((jsSet m k v).map Prod.fst).Nodup := by
  rw [jsSet_keys]
  cases hk : jsHas m k with
  | true =>
      rw [if_pos rfl]
      exact h
  | false =>
      rw [if_neg Bool.false_ne_true]
      have hnotin : k ∉ m.map Prod.fst := by
        intro hmem
        obtain ⟨p, hp, hpk⟩ := List.mem_map.mp hmem
        have : jsHas m k = true := by
          unfold jsHas
          refine List.any_eq_true.mpr ⟨p, hp, ?_⟩
          rw [hpk]
          simp
        rw [this] at hk
        cases hk
      simp [List.nodup_append, h, hnotin]

/-- Every entry of `Map.set` is the stored entry or an original one. -/
theorem jsSet_mem [BEq κ] [LawfulBEq κ] {m : List (κ × α)} {k : κ} {v : α} {q : κ × α}
    (h : q ∈ jsSet m k v) : q = (k, v) ∨ q ∈ m := by
  unfold jsSet at h
  by_cases hk : jsHas m k = true
  · rw [if_pos hk] at h
    obtain ⟨p, hp, hpq⟩ := List.mem_map.mp h
    by_cases hpk : (p.1 == k) = true
    · rw [if_pos hpk] at hpq
      exact Or.inl hpq.symm
    · rw [if_neg hpk] at hpq
      exact Or.inr (hpq ▸ hp)
  · rw [if_neg hk] at h
    rcases List.mem_append.mp h with h1 | h2
    · exact Or.inr h1
    · simp at h2
      exact Or.inl (by simp [h2])

/-- A successful lookup exhibits a stored entry. -/
theorem jsGet_mem [BEq κ] [LawfulBEq κ] {m : List (κ × α)} {k : κ} {v : α}
    (h : jsGet m k = some v) : (k, v) ∈ m := by
  unfold jsGet at h
  cases hf : m.find? (fun p => p.1 == k) with
  | none => rw [hf] at h; cases h
  | some p =>
      rw [hf] at h
      have hmem := List.mem_of_find?_eq_some hf
      have hpk := List.find?_some hf
      have h1 : p.1 = k := by
        simpa using hpk
      have h2 : p.2 = v := by
        simpa using h
      have : p = (k, v) := by
        cases p
        simp_all
      exact this ▸ hmem

/-- In a map with distinct keys that stores each value under its own key,
looking an entry's key up returns exactly that entry's value. -/
theorem jsGet_self_of_nodup [BEq κ] [LawfulBEq κ] (m : List (κ × α)) (p : κ × α)
    (hmem : p ∈ m) (hnd : (m.map Prod.fst).Nodup) : jsGet m p.1 = some p.2 := by
  induction m with
  | nil => cases hmem
  | cons q t ih =>
      obtain ⟨a, b⟩ := q
      rw [List.map_cons, List.nodup_cons] at hnd
      rcases List.mem_cons.mp hmem with h1 | h2
      · rw [h1]
        rw [jsGet_cons]
        simp
      · have hne : (a == p.1) = false := by
          simp only [beq_eq_false_iff_ne]
          intro hap
          exact hnd.1 (hap ▸ List.mem_map.mpr ⟨p, h2, rfl⟩)
        rw [jsGet_cons, hne]
        simpa using ih h2 hnd.2

/-- The serialization of a record does not depend on its reference. -/
theorem stringifyJob_congr (e j : TJob) (hid : e.id = j.id) (hrun : e.lastRun = j.lastRun)
    (hval : e.val = j.val) : stringifyJob e = stringifyJob j := by
  unfold stringifyJob
  rw [hid, hrun, hval]

/-- A merge step only touches the incoming record's key. -/
theorem mergeStep_get_ne (prevMap acc : List (String × TJob)) (j : TJob) (k : String)
    (h : j.id ≠ k) : jsGet (mergeStep prevMap acc j) k = jsGet acc k := by
  have hne : k ≠ j.id := fun hk => h hk.symm
  unfold mergeStep
  cases jsGet prevMap j.id with
  | none => exact jsGet_jsSet_ne acc j.id k j hne
  | some e =>
      dsimp only
      cases hb : stringifyJob e != stringifyJob j with
      | true =>
          rw [if_pos rfl]
          exact jsGet_jsSet_ne acc j.id k j hne
      | false =>
          rw [if_neg Bool.false_ne_true]
          exact jsGet_jsSet_ne acc j.id k e hne

/-- Folding records whose keys all differ from `k` leaves the lookup at `k`
unchanged. -/
theorem mergeFold_get_absent (prevMap : List (String × TJob)) (l : List TJob) :
    ∀ (acc : List (String × TJob)) (k : String), (∀ j ∈ l, j.id ≠ k) →
      jsGet (l.foldl (mergeStep prevMap) acc) k = jsGet acc k := by
  induction l with
  | nil =>
      intro acc k _
      rfl
  | cons j t ih =>
      intro acc k h
      rw [List.foldl_cons,
        ih (mergeStep prevMap acc j) k (fun x hx => h x (List.mem_cons_of_mem j hx))]
      exact mergeStep_get_ne prevMap acc j k (h j (List.mem_cons_self j t))

/-- When the previous record with the same key serializes identically, the
merge step keeps the existing reference. -/
theorem mergeStep_keep (prevMap acc : List (String × TJob)) (j e : TJob)
    (hprev : jsGet prevMap j.id = some e) (heq : stringifyJob e = stringifyJob j) :
    mergeStep prevMap acc j = jsSet acc j.id e := by
  unfold mergeStep
  rw [hprev]
  dsimp only
  have hb : (stringifyJob e != stringifyJob j) = false := by
    simp [bne, heq]
  rw [hb, if_neg Bool.false_ne_true]

/-- Refilling the working set from its own values rebuilds it unchanged. -/
theorem mergeFold_refill (prevMap : List (String × TJob)) :
    ∀ (rest acc : List (String × TJob)),
      (∀ p ∈ rest, p.1 = p.2.id) →
      (∀ p ∈ rest, jsGet prevMap p.1 = some p.2) →
      (∀ p ∈ rest, jsHas acc p.1 = false) →
      ((rest.map Prod.fst).Nodup) →
      (rest.map Prod.snd).foldl (mergeStep prevMap) acc = acc ++ rest := by
  intro rest
  induction rest with
  | nil =>
      intro acc _ _ _ _
      simp
  | cons p t ih =>
      intro acc hid hget hacc hnd
      rw [List.map_cons, List.foldl_cons]
      have hp1 : p.1 = p.2.id := hid p (List.mem_cons_self p t)
      have hgetp : jsGet prevMap p.2.id = some p.2 := by
        rw [← hp1]
        exact hget p (List.mem_cons_self p t)
      have hstep : mergeStep prevMap acc p.2 = jsSet acc p.2.id p.2 :=
        mergeStep_keep prevMap acc p.2 p.2 hgetp rfl
      have hsetapp : jsSet acc p.2.id p.2 = acc ++ [(p.2.id, p.2)] := by
        apply jsSet_of_not_has
        rw [← hp1]
        exact hacc p (List.mem_cons_self p t)
      have hpair : ((p.2.id, p.2) : String × TJob) = p := by
        obtain ⟨a, b⟩ := p
        simp only at hp1
        rw [← hp1]
      rw [List.map_cons, List.nodup_cons] at hnd
      have hstep2 : ∀ q ∈ t, jsHas (acc ++ [p]) q.1 = false := by
        intro q hq
        have h1 : jsHas acc q.1 = false := hacc q (List.mem_cons_of_mem p hq)
        have h2 : (p.1 == q.1) = false := by
          simp only [beq_eq_false_iff_ne]
          intro hpq
          exact hnd.1 (hpq ▸ List.mem_map.mpr ⟨q, hq, rfl⟩)
        unfold jsHas at h1 ⊢
        rw [List.any_append, h1]
        simpa using h2
      rw [hstep, hsetapp, hpair,
        ih (acc ++ [p]) (fun q hq => hid q (List.mem_cons_of_mem p hq))
          (fun q hq => hget q (List.mem_cons_of_mem p hq)) hstep2 hnd.2]
      simp

/-- Every entry the merge ever stores sits under its record's own key,
provided the previous working set does the same. -/
theorem mergeStep_wfValues (prevMap acc : List (String × TJob)) (j : TJob)
    (hprev : ∀ p ∈ prevMap, p.1 = p.2.id)
    (hacc : ∀ p ∈ acc, p.1 = p.2.id) :
    ∀ p ∈ mergeStep prevMap acc j, p.1 = p.2.id := by
  intro p hp
  unfold mergeStep at hp
  cases hg : jsGet prevMap j.id with
  | none =>
      rw [hg] at hp
      rcases jsSet_mem hp with h1 | h2
      · rw [h1]
      · exact hacc p h2
  | some e =>
      rw [hg] at hp
      dsimp only at hp
      have hed : e.id = j.id := (hprev (j.id, e) (jsGet_mem hg)).symm
      cases hb : stringifyJob e != stringifyJob j with
      | true =>
          rw [hb, if_pos rfl] at hp
          rcases jsSet_mem hp with h1 | h2
          · rw [h1]
          · exact hacc p h2
      | false =>
          rw [hb, if_neg Bool.false_ne_true] at hp
          rcases jsSet_mem hp with h1 | h2
          · rw [h1]
            exact hed.symm
          · exact hacc p h2

/-- A merge step preserves distinctness of the working keys. -/
theorem mergeStep_keys_nodup (prevMap acc : List (String × TJob)) (j : TJob)
    (hacc : (acc.map Prod.fst).Nodup) :
    ((mergeStep prevMap acc j).map Prod.fst).Nodup := by
  unfold mergeStep
  cases jsGet prevMap j.id with
  | none => exact jsSet_keys_nodup acc j.id j hacc
  | some e =>
      dsimp only
      cases stringifyJob e != stringifyJob j with
      | true =>
          rw [if_pos rfl]
          exact jsSet_keys_nodup acc j.id j hacc
      | false =>
          rw [if_neg Bool.false_ne_true]
          exact jsSet_keys_nodup acc j.id e hacc

/-- The merged working set is well formed: entries keyed by their record's
id, keys distinct. -/
theorem mergeFold_wf (prevMap : List (String × TJob))
    (hprev : ∀ p ∈ prevMap, p.1 = p.2.id) (l : List TJob) :
    ∀ acc, (∀ p ∈ acc, p.1 = p.2.id) → ((acc.map Prod.fst).Nodup) →
      (∀ p ∈ l.foldl (mergeStep prevMap) acc, p.1 = p.2.id) ∧
        (((l.foldl (mergeStep prevMap) acc).map Prod.fst).Nodup) := by
  induction l with
  | nil =>
      intro acc h1 h2
      exact ⟨h1, h2⟩
  | cons j t ih =>
      intro acc h1 h2
      rw [List.foldl_cons]
      exact ih (mergeStep prevMap acc j)
        (mergeStep_wfValues prevMap acc j hprev h1)
        (mergeStep_keys_nodup prevMap acc j h2)

/-- Bind on an `ok` value applies the continuation. -/
theorem except_bind_ok (a : α) (f : α → Except String β) :
    (Except.ok a >>= f) = f a := rfl

/-- `tryCatch` on an `ok` value returns it unchanged. -/
theorem except_tryCatch_ok (a : α) (h : String → Except String α) :
    tryCatch (Except.ok a) h = Except.ok a := rfl

/-- The decode pipeline itself never propagates an exception (the content
behind claim C1, reusable by the aggregator lemmas). -/
theorem safeParse_total (r : Response) (url : Option String) :
    ∃ v, safeParseResponse r url = Except.ok v := by
  obtain ⟨⟨data, isEmpty, parseError⟩, hb⟩ := safeParseBody_isOk r
  unfold safeParseResponse
  rw [hb]
  cases hok : r.okFlag <;> cases parseError <;> cases isEmpty <;> exact ⟨_, rfl⟩

/-- A per-source guard never propagates an exception. -/
theorem sourceItems_total (res : Option Response) :
    ∃ o, sourceItems res = Except.ok o := by
  unfold sourceItems
  cases res with
  | none => exact ⟨none, rfl⟩
  | some r =>
      dsimp only
      cases hok : r.okFlag with
      | false =>
          rw [if_neg Bool.false_ne_true]
          exact ⟨none, rfl⟩
      | true =>
          rw [if_pos rfl]
          obtain ⟨v, hv⟩ := safeParse_total r none
          rw [hv, except_bind_ok]
          cases v with
          | success d st =>
              cases d <;> exact ⟨_, rfl⟩
          | failure st um dbg => exact ⟨_, rfl⟩

/-- With a non-empty positive-client registry and every source failed, one
aggregation cycle rebuilds the map as the zero-initialized registry map,
clears the error and stamps the time. -/
theorem fetchAll_allFailed (orgs : List Organization) (s : GlobalState) (silent : Bool)
    (inp : GlobalFetchInputs) (now : Int)
    (hne : (orgsWithClientId orgs).isEmpty = false)
    (hf : allSourcesFailed inp) :
    fetchAll orgs s silent inp now = Except.ok
      { orgMetricsMap := initOrgMap orgs, error := none, lastUpdated := some now,
        loading := if silent then s.loading else false } := by
  obtain ⟨h1, h2, h3, h4, h5⟩ := hf
  unfold fetchAll
  rw [hne, if_neg Bool.false_ne_true, h1, h2, h3, h4, h5]
  rfl

/-- Every aggregation cycle settles without an exception, and any cycle
that passes the early-return guard clears the error and stamps the time. -/
theorem fetchAll_total (orgs : List Organization) (s : GlobalState) (silent : Bool)
    (inp : GlobalFetchInputs) (now : Int) :
    ∃ st, fetchAll orgs s silent inp now = Except.ok st ∧
      ((orgsWithClientId orgs).isEmpty = false →
        st.error = none ∧ st.lastUpdated = some now) := by
  unfold fetchAll
  cases he : (orgsWithClientId orgs).isEmpty with
  | true =>
      rw [if_pos rfl]
      exact ⟨s, rfl, fun h => absurd h (by simp)⟩
  | false =>
      rw [if_neg Bool.false_ne_true]
      obtain ⟨o1, h1⟩ := sourceItems_total inp.alertsRes
      obtain ⟨o2, h2⟩ := sourceItems_total inp.hostsRes
      obtain ⟨o3, h3⟩ := sourceItems_total inp.reportsRes
      obtain ⟨o4, h4⟩ := sourceItems_total inp.insightsRes
      obtain ⟨o5, h5⟩ := sourceItems_total inp.veeamRes
      rw [h1, h2, h3, h4, h5]
      exact ⟨_, rfl, fun _ => ⟨rfl, rfl⟩⟩

/-- A map misses a key that differs from every stored key. -/
theorem jsHas_eq_false [BEq κ] [LawfulBEq κ] {m : List (κ × α)} {k : κ}
    (h : ∀ p ∈ m, p.1 ≠ k) : jsHas m k = false := by
  unfold jsHas
  rw [List.any_eq_false]
  intro p hp
  simpa using h p hp

/-- A row scan misses an id that differs from every row's id. -/
theorem rows_any_eq_false {rows : List OrgMetricsRow} {i : String}
    (h : ∀ r ∈ rows, r.orgId ≠ i) : (rows.any (fun r => r.orgId == i)) = false := by
  rw [List.any_eq_false]
  intro r hr
  simpa using h r hr

/-- A fold of `Map.set`s over records with fresh, pairwise-distinct keys
appends one entry per record. -/
theorem foldl_jsSet_eq [BEq κ] [LawfulBEq κ] (key : β → κ) (val : β → α) (l : List β) :
    ∀ acc : List (κ × α),
      (∀ q ∈ acc, ∀ x ∈ l, q.1 ≠ key x) →
      ((l.map key).Nodup) →
      l.foldl (fun m x => jsSet m (key x) (val x)) acc =
        acc ++ l.map (fun x => (key x, val x)) := by
  induction l with
  | nil =>
      intro acc _ _
      simp
  | cons x t ih =>
      intro acc hfresh hnd
      rw [List.map_cons, List.nodup_cons] at hnd
      rw [List.foldl_cons]
      have hset : jsSet acc (key x) (val x) = acc ++ [(key x, val x)] := by
        apply jsSet_of_not_has
        exact jsHas_eq_false (fun q hq => hfresh q hq x (List.mem_cons_self x t))
      rw [hset, ih (acc ++ [(key x, val x)]) ?_ hnd.2]
      · simp
      · intro q hq y hy
        rcases List.mem_append.mp hq with hq1 | hq2
        · exact hfresh q hq1 y (List.mem_cons_of_mem x hy)
        · have hqx : q = (key x, val x) := by simpa using hq2
          rw [hqx]
          intro hk
          apply hnd.1
          have hk' : key x = key y := hk
          rw [hk']
          exact List.mem_map.mpr ⟨y, hy, rfl⟩

/-- A fold that skips elements failing `p` equals the fold over the
filtered list (`clientIdToOrg`'s conditional insertion). -/
theorem foldl_skip_eq_foldl_filter (p : β → Prop) [DecidablePred p] (f : γ → β → γ)
    (l : List β) :
    ∀ acc : γ,
      l.foldl (fun m x => if p x then f m x else m) acc =
        (l.filter (fun x => decide (p x))).foldl f acc := by
  induction l with
  | nil =>
      intro acc
      rfl
  | cons x t ih =>
      intro acc
      rw [List.foldl_cons, List.filter_cons]
      by_cases hp : p x
      · rw [if_pos hp, if_pos (by simpa using hp), List.foldl_cons]
        exact ih (f acc x)
      · rw [if_neg hp, if_neg (by simpa using hp)]
        exact ih acc

/-- The non-positivity test is the negated positivity test. -/
theorem decide_nonpos_eq (x : Int) : decide (x ≤ 0) = !decide (0 < x) := by
  rcases lt_or_le 0 x with h | h
  · simp [h, not_le.mpr h]
  · simp [h, not_lt.mpr h]

/-- The first `orgRows` fold turns each zero map entry whose client id
resolves in the registry lookup into one zero-counter row. -/
theorem rows_first_fold (cidOrg : List (Int × Organization)) (l : List Organization)
    (hget : ∀ o ∈ l, jsGet cidOrg o.clientId = some o) :
    ∀ acc : List OrgMetricsRow,
      (l.map (fun o => ((o.clientId : Int), zeroEntry))).foldl
        (fun rows p =>
          match jsGet cidOrg p.1 with
          | none => rows
          | some org => rows ++ [rowOf org p.2]) acc =
      acc ++ l.map (fun o => rowOf o zeroEntry) := by
  induction l with
  | nil =>
      intro acc
      simp
  | cons o t ih =>
      intro acc
      rw [List.map_cons, List.foldl_cons]
      have hstep :
          (match jsGet cidOrg ((o.clientId : Int), zeroEntry).1 with
            | none => acc
            | some org => acc ++ [rowOf org ((o.clientId : Int), zeroEntry).2]) =
          acc ++ [rowOf o zeroEntry] := by
        rw [show ((o.clientId : Int), zeroEntry).1 = o.clientId from rfl,
          hget o (List.mem_cons_self o t)]
      rw [hstep, ih (fun q hq => hget q (List.mem_cons_of_mem o hq)) (acc ++ [rowOf o zeroEntry])]
      simp

/-- The second `orgRows` fold appends one zero row per organization without
a client id, given globally distinct organization ids. -/
theorem rows_second_fold (l : List Organization) :
    ∀ acc : List OrgMetricsRow,
      ((acc.map OrgMetricsRow.orgId ++
        (l.filter (fun o => o.clientId ≤ 0)).map Organization.id).Nodup) →
      l.foldl
        (fun rows o =>
          if o.clientId ≤ 0 && !(rows.any (fun r => r.orgId == o.id)) then rows ++ [zeroRow o]
          else rows) acc =
      acc ++ (l.filter (fun o => o.clientId ≤ 0)).map zeroRow := by
  induction l with
  | nil =>
      intro acc _
      simp
  | cons o t ih =>
      intro acc hnd
      rw [List.filter_cons] at hnd ⊢
      rw [List.foldl_cons]
      cases hp : decide (o.clientId ≤ 0) with
      | false =>
          rw [hp, if_neg Bool.false_ne_true] at hnd
          rw [if_neg Bool.false_ne_true, Bool.false_and, if_neg Bool.false_ne_true]
          exact ih acc hnd
      | true =>
          rw [hp, if_pos rfl, List.map_cons] at hnd
          rw [if_pos rfl]
          have hmiss : (acc.any (fun r => r.orgId == o.id)) = false := by
            apply rows_any_eq_false
            intro r hr hri
            rw [List.nodup_append] at hnd
            exact hnd.2.2 (List.mem_map.mpr ⟨r, hr, hri⟩) (List.mem_cons_self _ _)
          rw [hmiss, Bool.not_false, Bool.and_self, if_pos rfl]
          have hnd2 : (((acc ++ [zeroRow o]).map OrgMetricsRow.orgId ++
              (t.filter (fun x => decide (x.clientId ≤ 0))).map Organization.id).Nodup) := by
            simpa [zeroRow, List.append_assoc] using hnd
          rw [ih (acc ++ [zeroRow o]) hnd2]
          simp

/-- Under distinct positive client ids, the zero-initialized registry map
is literally one zero entry per positive-client organization. -/
theorem initOrgMap_eq (orgs : List Organization)
    (hcids : ((orgsWithClientId orgs).map (fun o => o.clientId)).Nodup) :
    initOrgMap orgs =
      (orgsWithClientId orgs).map (fun o => ((o.clientId : Int), zeroEntry)) := by
  unfold initOrgMap
  calc (orgsWithClientId orgs).foldl (fun m o => jsSet m o.clientId zeroEntry) []
      = [] ++ (orgsWithClientId orgs).map (fun o => ((o.clientId : Int), zeroEntry)) :=
        foldl_jsSet_eq (fun o : Organization => o.clientId)
          (fun _ : Organization => zeroEntry) (orgsWithClientId orgs) [] (by simp) hcids
    _ = _ := by simp

/-- Under distinct positive client ids, the registry lookup map is one
entry per positive-client organization. -/
theorem clientIdToOrg_eq (orgs : List Organization)
    (hcids : ((orgsWithClientId orgs).map (fun o => o.clientId)).Nodup) :
    clientIdToOrg orgs =
      (orgsWithClientId orgs).map (fun o => ((o.clientId : Int), o)) := by
  unfold clientIdToOrg
  calc orgs.foldl (fun m o => if 0 < o.clientId then jsSet m o.clientId o else m) []
      = (orgsWithClientId orgs).foldl (fun m o => jsSet m o.clientId o) [] :=
        foldl_skip_eq_foldl_filter (fun o : Organization => 0 < o.clientId)
          (fun m o => jsSet m o.clientId o) orgs []
    _ = [] ++ (orgsWithClientId orgs).map (fun o => ((o.clientId : Int), o)) :=
        foldl_jsSet_eq (fun o : Organization => o.clientId) (fun o : Organization => o)
          (orgsWithClientId orgs) [] (by simp) hcids
    _ = _ := by simp

/-- Looking a registered positive-client organization's client id up in the
registry map returns that organization. -/
theorem clientIdToOrg_get_self (orgs : List Organization) (o : Organization)
    (ho : o ∈ orgsWithClientId orgs)
    (hcids : ((orgsWithClientId orgs).map (fun x => x.clientId)).Nodup) :
    jsGet (clientIdToOrg orgs) o.clientId = some o := by
  rw [clientIdToOrg_eq orgs hcids]
  have hkeys : ((((orgsWithClientId orgs).map
      (fun x => ((x.clientId : Int), x))).map Prod.fst)).Nodup := by
    rw [List.map_map]
    exact hcids
  have h := jsGet_self_of_nodup
    ((orgsWithClientId orgs).map (fun x => ((x.clientId : Int), x)))
    ((o.clientId : Int), o) (List.mem_map.mpr ⟨o, ho, rfl⟩) hkeys
  simpa using h

/-- Looking a registered positive-client organization's client id up in the
zero-initialized registry map returns the zero entry. -/
theorem initOrgMap_get_self (orgs : List Organization) (o : Organization)
    (ho : o ∈ orgsWithClientId orgs)
    (hcids : ((orgsWithClientId orgs).map (fun x => x.clientId)).Nodup) :
    jsGet (initOrgMap orgs) o.clientId = some zeroEntry := by
  rw [initOrgMap_eq orgs hcids]
  have hkeys : ((((orgsWithClientId orgs).map
      (fun x => ((x.clientId : Int), zeroEntry))).map Prod.fst)).Nodup := by
    rw [List.map_map]
    exact hcids
  have h := jsGet_self_of_nodup
    ((orgsWithClientId orgs).map (fun x => ((x.clientId : Int), zeroEntry)))
    ((o.clientId : Int), zeroEntry) (List.mem_map.mpr ⟨o, ho, rfl⟩) hkeys
  simpa using h

/-- With distinct registry ids and distinct positive client ids, the rows
computed from the zero-initialized registry map are exactly one zero row
per registered organization (positive-client rows first, then the
appended no-client rows), sorted by name. -/
theorem orgRows_initOrgMap (orgs : List Organization)
    (hids : (orgs.map Organization.id).Nodup)
    (hcids : ((orgsWithClientId orgs).map (fun o => o.clientId)).Nodup) :
    orgRows orgs (initOrgMap orgs) =
      ((orgsWithClientId orgs).map (fun o => rowOf o zeroEntry) ++
        (orgs.filter (fun o => o.clientId ≤ 0)).map zeroRow).mergeSort
        (fun a b => decide (a.orgName ≤ b.orgName)) := by
  have hinit := initOrgMap_eq orgs hcids
  have hcid := clientIdToOrg_eq orgs hcids
  have hget : ∀ o ∈ orgsWithClientId orgs,
      jsGet ((orgsWithClientId orgs).map (fun x => ((x.clientId : Int), x))) o.clientId =
        some o := by
    intro o ho
    rw [← hcid]
    exact clientIdToOrg_get_self orgs o ho hcids
  have hperm0 : ((orgsWithClientId orgs) ++
      orgs.filter (fun o => decide (o.clientId ≤ 0))).Perm orgs := by
    have hcongr : orgs.filter (fun o => decide (o.clientId ≤ 0)) =
        orgs.filter (fun o => !(decide (0 < o.clientId))) :=
      List.filter_congr (fun o _ => by rw [decide_nonpos_eq])
    rw [hcongr]
    exact List.filter_append_perm _ orgs
  have hbig : ((([] ++ (orgsWithClientId orgs).map (fun o => rowOf o zeroEntry)).map
      OrgMetricsRow.orgId ++
      (orgs.filter (fun o => decide (o.clientId ≤ 0))).map Organization.id).Nodup) := by
    have h1 : (([] ++ (orgsWithClientId orgs).map (fun o => rowOf o zeroEntry)).map
        OrgMetricsRow.orgId ++
        (orgs.filter (fun o => decide (o.clientId ≤ 0))).map Organization.id) =
        ((orgsWithClientId orgs) ++
          orgs.filter (fun o => decide (o.clientId ≤ 0))).map Organization.id := by
      simp [List.map_map, rowOf, Function.comp]
    rw [h1]
    exact ((hperm0.map Organization.id)).symm.nodup hids
  unfold orgRows
  dsimp only
  rw [hinit, hcid,
    rows_first_fold ((orgsWithClientId orgs).map (fun x => ((x.clientId : Int), x)))
      (orgsWithClientId orgs) hget [],
    rows_second_fold orgs ([] ++ (orgsWithClientId orgs).map (fun o => rowOf o zeroEntry)) hbig]
  simp

/-- A record fold step touches only the key its record resolves to. -/
theorem recordStep_get_ne (cidOrg : List (Int × Organization))
    (upd : Json → OrgEntry → OrgEntry) (m : List (Int × OrgEntry)) (a : Json) (k : Int)
    (h : getClientId a ≠ k) :
    jsGet (recordStep cidOrg upd m a) k = jsGet m k := by
  have hne : k ≠ getClientId a := fun hk => h hk.symm
  unfold recordStep
  dsimp only
  by_cases hc : getClientId a ≤ 0
  · rw [if_pos hc]
  · rw [if_neg hc]
    have he : jsGet (ensureEntry cidOrg m (getClientId a)) k = jsGet m k := by
      unfold ensureEntry
      by_cases hens : (!(jsHas m (getClientId a)) && jsHas cidOrg (getClientId a)) = true
      · rw [if_pos hens]
        exact jsGet_jsSet_ne m (getClientId a) k zeroEntry hne
      · rw [if_neg hens]
    cases hg : jsGet (ensureEntry cidOrg m (getClientId a)) (getClientId a) with
    | none => exact he
    | some entry =>
        dsimp only
        rw [jsGet_jsSet_ne _ (getClientId a) k (upd a entry) hne]
        exact he

/-- Folding records that all resolve to other keys leaves the lookup at `k`
unchanged. -/
theorem recordFold_get_absent (cidOrg : List (Int × Organization))
    (upd : Json → OrgEntry → OrgEntry) (items : List Json) :
    ∀ (m : List (Int × OrgEntry)) (k : Int), (∀ a ∈ items, getClientId a ≠ k) →
      jsGet (items.foldl (recordStep cidOrg upd) m) k = jsGet m k := by
  induction items with
  | nil =>
      intro m k _
      rfl
  | cons a t ih =>
      intro m k h
      rw [List.foldl_cons,
        ih (recordStep cidOrg upd m a) k (fun x hx => h x (List.mem_cons_of_mem a hx)),
        recordStep_get_ne cidOrg upd m a k (h a (List.mem_cons_self a t))]

/-- A source stage with no record for `k` leaves the lookup at `k` unchanged. -/
theorem foldSource_get_absent (cidOrg : List (Int × Organization))
    (upd : Json → OrgEntry → OrgEntry) (o : Option (List Json))
    (m : List (Int × OrgEntry)) (k : Int)
    (h : ∀ items, o = some items → ∀ a ∈ items, getClientId a ≠ k) :
    jsGet (foldSource cidOrg upd o m) k = jsGet m k := by
  cases o with
  | none => rfl
  | some items => exact recordFold_get_absent cidOrg upd items m k (h items rfl)

/-- The veeam stage with no matched record for `k` leaves the lookup at `k`
unchanged. -/
theorem foldSourceVeeam_get_absent (cidOrg : List (Int × Organization))
    (o : Option (List Json)) (m : List (Int × OrgEntry)) (k : Int)
    (h : ∀ items, o = some items → ∀ a ∈ veeamItems items, getClientId a ≠ k) :
    jsGet (foldSourceVeeam cidOrg o m) k = jsGet m k := by
  cases o with
  | none => rfl
  | some items => exact recordFold_get_absent cidOrg veeamUpdate (veeamItems items) m k (h items rfl)

/-- An aggregation cycle whose sources carry no record for `k` ends with
the same entry at `k` as the zero-initialized registry map. -/
theorem fetchAll_get_absent (orgs : List Organization) (s : GlobalState) (silent : Bool)
    (inp : GlobalFetchInputs) (now : Int) (k : Int)
    (hne : (orgsWithClientId orgs).isEmpty = false)
    (habs : clientAbsent inp k) :
    ∃ st, fetchAll orgs s silent inp now = Except.ok st ∧
      jsGet st.orgMetricsMap k = jsGet (initOrgMap orgs) k := by
  obtain ⟨ha1, ha2, ha3, ha4, ha5⟩ := habs
  obtain ⟨o1, h1⟩ := sourceItems_total inp.alertsRes
  obtain ⟨o2, h2⟩ := sourceItems_total inp.hostsRes
  obtain ⟨o3, h3⟩ := sourceItems_total inp.reportsRes
  obtain ⟨o4, h4⟩ := sourceItems_total inp.insightsRes
  obtain ⟨o5, h5⟩ := sourceItems_total inp.veeamRes
  unfold fetchAll
  rw [hne, if_neg Bool.false_ne_true, h1, h2, h3, h4, h5]
  refine ⟨_, rfl, ?_⟩
  show jsGet
      (foldSourceVeeam (clientIdToOrg orgs) o5
        (foldSource (clientIdToOrg orgs) insightUpdate o4
          (foldSource (clientIdToOrg orgs) reportUpdate o3
            (foldSource (clientIdToOrg orgs) hostUpdate o2
              (foldSource (clientIdToOrg orgs) alertUpdate o1 (initOrgMap orgs)))))) k =
    jsGet (initOrgMap orgs) k
  rw [foldSourceVeeam_get_absent (clientIdToOrg orgs) o5 _ k
        (fun items ho => ha5 items (by rw [h5, ho])),
      foldSource_get_absent (clientIdToOrg orgs) insightUpdate o4 _ k
        (fun items ho => ha4 items (by rw [h4, ho])),
      foldSource_get_absent (clientIdToOrg orgs) reportUpdate o3 _ k
        (fun items ho => ha3 items (by rw [h3, ho])),
      foldSource_get_absent (clientIdToOrg orgs) hostUpdate o2 _ k
        (fun items ho => ha2 items (by rw [h2, ho])),
      foldSource_get_absent (clientIdToOrg orgs) alertUpdate o1 _ k
        (fun items ho => ha1 items (by rw [h1, ho]))]

/-- The row-building fold only appends: earlier rows persist. -/
theorem rows_fold1_mono (cidOrg : List (Int × Organization)) (m : List (Int × OrgEntry)) :
    ∀ (acc : List OrgMetricsRow) (r : OrgMetricsRow), r ∈ acc →
      r ∈ m.foldl (fun rows p =>
        match jsGet cidOrg p.1 with
        | none => rows
        | some org => rows ++ [rowOf org p.2]) acc := by
  induction m with
  | nil =>
      intro acc r hr
      exact hr
  | cons p t ih =>
      intro acc r hr
      rw [List.foldl_cons]
      apply ih
      cases jsGet cidOrg p.1 with
      | none => exact hr
      | some org =>
          dsimp only
          exact List.mem_append_left _ hr

/-- Every map entry whose client id resolves in the registry contributes
its row to the row-building fold. -/
theorem rows_fold1_mem (cidOrg : List (Int × Organization)) (m : List (Int × OrgEntry)) :
    ∀ (acc : List OrgMetricsRow) (p : Int × OrgEntry) (org : Organization),
      p ∈ m → jsGet cidOrg p.1 = some org →
      rowOf org p.2 ∈ m.foldl (fun rows q =>
        match jsGet cidOrg q.1 with
        | none => rows
        | some org => rows ++ [rowOf org q.2]) acc := by
  induction m with
  | nil =>
      intro acc p org hp _
      cases hp
  | cons q t ih =>
      intro acc p org hp hlook
      rw [List.foldl_cons]
      rcases List.mem_cons.mp hp with h1 | h2
      · subst h1
        apply rows_fold1_mono cidOrg t
        rw [hlook]
        dsimp only
        exact List.mem_append_right _ (by simp)
      · exact ih _ p org h2 hlook

/-- The zero-row-appending fold only appends: earlier rows persist. -/
theorem rows_fold2_mono (l : List Organization) :
    ∀ (acc : List OrgMetricsRow) (r : OrgMetricsRow), r ∈ acc →
      r ∈ l.foldl (fun rows o =>
        if o.clientId ≤ 0 && !(rows.any (fun x => x.orgId == o.id)) then rows ++ [zeroRow o]
        else rows) acc := by
  induction l with
  | nil =>
      intro acc r hr
      exact hr
  | cons o t ih =>
      intro acc r hr
      rw [List.foldl_cons]
      apply ih
      by_cases hc : (decide (o.clientId ≤ 0) && !(acc.any (fun x => x.orgId == o.id))) = true
      · rw [if_pos hc]
        exact List.mem_append_left _ hr
      · rw [if_neg hc]
        exact hr

/-- A map entry whose client id resolves in the registry yields its row in
`orgRows`. -/
theorem orgRows_mem_of_entry (orgs : List Organization) (m : List (Int × OrgEntry))
    (k : Int) (e : OrgEntry) (org : Organization)
    (hmem : (k, e) ∈ m) (hlook : jsGet (clientIdToOrg orgs) k = some org) :
    rowOf org e ∈ orgRows orgs m := by
  unfold orgRows
  dsimp only
  apply (List.mergeSort_perm _ _).mem_iff.mpr
  apply rows_fold2_mono
  exact rows_fold1_mem (clientIdToOrg orgs) m [] (k, e) org hmem hlook

/-- The positive and non-positive client-id filters partition the registry. -/
theorem length_filter_clientId (l : List Organization) :
    (l.filter (fun o => 0 < o.clientId)).length +
      (l.filter (fun o => o.clientId ≤ 0)).length = l.length := by
  induction l with
  | nil => rfl
  | cons o t ih =>
      rw [List.filter_cons, List.filter_cons]
      rcases lt_or_le 0 o.clientId with h | h
      · have h1 : (decide (0 < o.clientId)) = true := by simpa using h
        have h2 : ¬((decide (o.clientId ≤ 0)) = true) := by
          simp only [decide_eq_true_eq]
          omega
        rw [if_pos h1, if_neg h2]
        simp only [List.length_cons]
        omega
      · have h1 : (decide (o.clientId ≤ 0)) = true := by simpa using h
        have h2 : ¬((decide (0 < o.clientId)) = true) := by
          simp only [decide_eq_true_eq]
          omega
        rw [if_pos h1, if_neg h2]
        simp only [List.length_cons]
        omega

-- ── Claim theorems ─────────────────────────────────────────────────────────

/-- C1: for every input response (any status; empty, unreadable, malformed
JSON, valid JSON or plain-text body), `safeParseResponse` returns a tagged
`SafeFetchResult` and never raises an exception to its caller: the
`Except`-modelled decode pipeline, whose primitives (body read, JSON parse)
can throw, always ends in `Except.ok`. -/
theorem claim_C1_decoder_never_throws (r : Response) (url : Option String) :
    ∃ v, safeParseResponse r url = Except.ok v := by
  obtain ⟨⟨data, isEmpty, parseError⟩, hb⟩ := safeParseBody_isOk r
  unfold safeParseResponse
  rw [hb]
  cases hok : r.okFlag <;> cases parseError <;> cases isEmpty <;> exact ⟨_, rfl⟩

/-- C2: for every response whose status is outside [200,299],
`safeParseResponse` returns a Failure regardless of the body, whose
`userMessage` is `getUserMessage status` — a function of the status alone,
always drawn from the fixed seven-entry table (0, 401, 403, 404, 408, 5xx,
default), so it never incorporates the response body or the URL; those
appear only in the existentially quantified `debug` field. -/
theorem claim_C2_non2xx_failure_from_table (r : Response) (url : Option String)
    (h : r.status < 200 ∨ 299 < r.status) :
    ∃ debug, safeParseResponse r url =
        Except.ok (SafeFetchResult.failure r.status (getUserMessage r.status false false) debug) ∧
      getUserMessage r.status false false ∈ statusMessageTable := by
  obtain ⟨b, hb⟩ := safeParseBody_isOk r
  have hok : r.okFlag = false := okFlag_false_of_non2xx r h
  refine ⟨"HTTP " ++ toString r.status ++ " from " ++ jsOrOpt url r.url ++ ". Body: " ++
      (match b.parseError with
       | some pe => pe
       | none => jsOrStr ((stringify b.data).take 300) "(empty)"),
    ?_, getUserMessage_mem_table r.status⟩
  unfold safeParseResponse
  rw [hb, hok]
  rfl

/-- Witness for C2 at a concrete 404 response with a body and a URL. -/
theorem claim_C2_witness :
    ∃ debug, safeParseResponse resp404 none =
        Except.ok (SafeFetchResult.failure resp404.status
          (getUserMessage resp404.status false false) debug) ∧
      getUserMessage resp404.status false false ∈ statusMessageTable :=
  claim_C2_non2xx_failure_from_table resp404 none (by decide)

/-- C9 fails on the code: a 2xx response whose body read fails at the
stream level does NOT yield the empty-success outcome `Success{data:null}`;
`safeParseResponse` checks `parseError` before `isEmpty`, so the read
failure surfaces as a Failure with the fixed parse message. -/
theorem claim_C9_counterexample :
    safeParseResponse respReadFail none =
      Except.ok (SafeFetchResult.failure 200 friendlyParse "Could not read response body") ∧
    safeParseResponse respReadFail none ≠
      Except.ok (SafeFetchResult.success Json.null 200) := by
  constructor
  · rfl
  · intro h
    have h2 : SafeFetchResult.failure 200 friendlyParse "Could not read response body" =
        SafeFetchResult.success Json.null 200 := Except.ok.inj h
    exact SafeFetchResult.noConfusion h2

/-- C9 amended: for every 2xx response (other than 204 / content-length 0,
where the body is never read) whose body read fails at the stream level,
the decoder returns a `Failure` whose `userMessage` is the fixed parse
message and whose debug detail flags the read failure — not the empty
`Success{data:null}` outcome of a 204 or zero-length body. -/
theorem claim_C9_read_failure_is_failure (r : Response) (url : Option String)
    (h200 : 200 ≤ r.status) (h299 : r.status ≤ 299) (h204 : r.status ≠ 204)
    (hcl : r.contentLength ≠ some "0") (hread : ∃ e, r.textResult = Except.error e) :
    safeParseResponse r url =
      Except.ok (SafeFetchResult.failure r.status (getUserMessage r.status true false)
        "Could not read response body") := by
  obtain ⟨e, he⟩ := hread
  have h204b : (r.status == 204) = false := by simp [h204]
  have hclb : (r.contentLength == some "0") = false := by simp [hcl]
  have hb : safeParseBody r =
      Except.ok { data := Json.null, isEmpty := true,
                  parseError := some "Could not read response body" } := by
    unfold safeParseBody
    rw [h204b, hclb, he]
    rfl
  have hok := okFlag_true_of_2xx r h200 h299
  unfold safeParseResponse
  rw [hb, hok]
  rfl

/-- Witness for the amended C9 at the concrete read-failure response. -/
theorem claim_C9_read_failure_witness :
    safeParseResponse respReadFail none =
      Except.ok (SafeFetchResult.failure respReadFail.status
        (getUserMessage respReadFail.status true false) "Could not read response body") :=
  claim_C9_read_failure_is_failure respReadFail none (by decide) (by decide) (by decide)
    (by decide) ⟨"stream reset", rfl⟩

/-- C4 fails on the code: on a failed silent refresh the error message is
NOT set to the failure message — `setError` runs only when `silent` is
false — so from a state with no error, a silent failure leaves `error`
at `none` rather than the thrown `HTTP error! status: 500` message. -/
theorem claim_C4_counterexample :
    (fetchJobs sampleVeeamState true (Except.error "HTTP error! status: 500")).error = none ∧
    (none : Option String) ≠ some "HTTP error! status: 500" := by
  exact ⟨rfl, by simp⟩

/-- C4 amended: a failed refresh invoked with `silent=true` leaves the
published records, the working map, the loading flag, `lastUpdated` AND the
error message all unchanged; the only visible change is that `isConnected`
becomes false.  (The failure message is stored only by non-silent
refreshes.) -/
theorem claim_C4_silent_failure_flips_only_connectivity
    (s : VeeamHookState) (msg : String) :
    fetchJobs s true (Except.error msg) = { s with isConnected := false } := by
  cases s
  simp [fetchJobs]

/-- C7: the engine derives `totalPages = max(1, ceil(totalItems/8))`, the
recompute effect clamps `currentPage` down to `totalPages` exactly when it
exceeds it and never clamps upward (a `currentPage` of 1 is a fixed point
for every collection size); in particular `totalItems=17` gives
`totalPages=3`, and setting the page toward 5 then shrinking the collection
to 5 items ends with `totalPages=1` and `currentPage=1`. -/
theorem claim_C7_pagination_clamp :
    (∀ (cp : Int) (n : Nat),
        ((totalPagesFor n : Int) < cp → clampPage cp n = (totalPagesFor n : Int)) ∧
        (cp ≤ (totalPagesFor n : Int) → clampPage cp n = cp)) ∧
    totalPagesFor 17 = 3 ∧ totalPagesFor 5 = 1 ∧
    clampPage (setCurrentPage 5 17) 5 = 1 ∧
    (∀ n : Nat, clampPage 1 n = 1) := by
  refine ⟨fun cp n => ⟨fun h => ?_, fun h => ?_⟩, by decide, by decide, by decide, fun n => ?_⟩
  · unfold clampPage
    rw [if_pos h]
  · unfold clampPage
    rw [if_neg (not_lt.mpr h)]
  · have h1 : 1 ≤ totalPagesFor n := le_max_left 1 _
    have h1i : (1 : Int) ≤ (totalPagesFor n : Int) := by exact_mod_cast h1
    unfold clampPage
    rw [if_neg (not_lt.mpr h1i)]

/-- Witness for C7: the clamp applied at concrete pages and sizes. -/
theorem claim_C7_witness :
    clampPage 5 17 = (totalPagesFor 17 : Int) ∧ clampPage 2 17 = 2 :=
  ⟨(claim_C7_pagination_clamp.1 5 17).1 (by decide),
   (claim_C7_pagination_clamp.1 2 17).2 (by decide)⟩

/-- C8 fails on the code: `setCurrentPage` is the raw `useState` setter and
does not reject out-of-range values.  With 17 items (3 pages) and the page
sitting at 1, requesting page 5 ends at page 3 (clamped, not ignored), and
requesting page 0 ends at page 0 with an empty paged slice — both the page
and the exposed slice change. -/
theorem claim_C8_counterexample :
    setCurrentPage 5 17 = 3 ∧ setCurrentPage 5 17 ≠ 1 ∧
    setCurrentPage 0 17 = 0 ∧
    paginatedItems (List.range 17) (setCurrentPage 0 17) ≠
      paginatedItems (List.range 17) 1 := by
  exact ⟨by decide, by decide, by decide, by decide⟩

/-- C8 amended: `setCurrentPage(n)` stores `n` verbatim and the recompute
effect then clamps: a request above `totalPages` lands on `totalPages`
(not on the previous page), and any request at or below `totalPages` —
including values below 1 — is adopted unchanged, with no rejection. -/
theorem claim_C8_set_page_not_rejected (requested : Int) (n : Nat) :
    ((totalPagesFor n : Int) < requested →
        setCurrentPage requested n = (totalPagesFor n : Int)) ∧
    (requested ≤ (totalPagesFor n : Int) → setCurrentPage requested n = requested) := by
  constructor
  · intro h
    unfold setCurrentPage clampPage
    rw [if_pos h]
  · intro h
    unfold setCurrentPage clampPage
    rw [if_neg (not_lt.mpr h)]

/-- Witness for the amended C8: an above-range and a below-range request. -/
theorem claim_C8_set_page_witness :
    setCurrentPage 9 17 = 3 ∧ setCurrentPage (-2) 17 = -2 := by
  constructor
  · have h := (claim_C8_set_page_not_rejected 9 17).1 (by decide)
    rw [h]
    decide
  · exact (claim_C8_set_page_not_rejected (-2) 17).2 (by decide)

/-- C3: the smart merge preserves references of unchanged records.  First
conjunct: merging a well-formed working set against its own values rebuilds
exactly the same set, every record reference included.  Second conjunct:
any incoming record that is the last of its key in fetch order and whose
deep value (identity key, timestamp and content — everything
`JSON.stringify` observes) is unchanged from the previous poll keeps the
previous record `e` itself, reference (`ref`) and all. -/
theorem claim_C3_merge_keeps_unchanged_references :
    (∀ prevMap : List (String × TJob),
        (∀ p ∈ prevMap, p.1 = p.2.id) → ((prevMap.map Prod.fst).Nodup) →
        smartMerge prevMap (prevMap.map Prod.snd) = prevMap) ∧
    (∀ (prevMap : List (String × TJob)) (l1 l2 : List TJob) (job e : TJob),
        (∀ j ∈ l2, j.id ≠ job.id) →
        jsGet prevMap job.id = some e →
        e.id = job.id → e.lastRun = job.lastRun → e.val = job.val →
        jsGet (smartMerge prevMap (l1 ++ job :: l2)) job.id = some e) := by
  constructor
  · intro prevMap hWF hnd
    unfold smartMerge
    have h := mergeFold_refill prevMap prevMap [] hWF
      (fun p hp => jsGet_self_of_nodup prevMap p hp hnd)
      (fun p _ => rfl) hnd
    simpa using h
  · intro prevMap l1 l2 job e h2 hprev hid hrun hval
    unfold smartMerge
    rw [List.foldl_append, List.foldl_cons,
      mergeFold_get_absent prevMap l2 _ job.id h2,
      mergeStep_keep prevMap _ job e hprev (stringifyJob_congr e job hid hrun hval)]
    exact jsGet_jsSet_self _ job.id e

/-- Witness for C3: self-merge of a concrete two-record set, and reference
preservation for a concrete unchanged record. -/
theorem claim_C3_witness :
    smartMerge samplePrevMap (samplePrevMap.map Prod.snd) = samplePrevMap ∧
    jsGet (smartMerge samplePrevMap
        ([] ++ ({ ref := 9, id := "a", lastRun := 10, val := Json.str "x" } : TJob) :: []))
      "a" = some { ref := 1, id := "a", lastRun := 10, val := Json.str "x" } := by
  constructor
  · exact claim_C3_merge_keeps_unchanged_references.1 samplePrevMap (by decide) (by decide)
  · exact claim_C3_merge_keeps_unchanged_references.2 samplePrevMap [] []
      { ref := 9, id := "a", lastRun := 10, val := Json.str "x" }
      { ref := 1, id := "a", lastRun := 10, val := Json.str "x" }
      (by simp) rfl rfl rfl rfl

/-- C10: the published collection has at most one record per identity key.
First conjunct: given a well-formed previous working set (every entry keyed
by its record's id — the invariant the merge itself maintains from the
initially empty map), the published, sorted list after a merge has pairwise
distinct ids, whatever duplicates the fetched collection contained.
Second conjunct: the record surviving under a duplicated key serializes
exactly like the last occurrence in fetch order. -/
theorem claim_C10_published_ids_unique :
    (∀ (prevMap : List (String × TJob)) (fresh : List TJob),
        (∀ p ∈ prevMap, p.1 = p.2.id) →
        ((publishJobs (smartMerge prevMap fresh)).map TJob.id).Nodup) ∧
    (∀ (prevMap : List (String × TJob)) (l1 l2 : List TJob) (job : TJob),
        (∀ j ∈ l2, j.id ≠ job.id) →
        ∃ r, jsGet (smartMerge prevMap (l1 ++ job :: l2)) job.id = some r ∧
          stringifyJob r = stringifyJob job) := by
  constructor
  · intro prevMap fresh hprev
    obtain ⟨hwf, hnd⟩ := mergeFold_wf prevMap hprev fresh [] (by simp) (by simp)
    have hids : ((smartMerge prevMap fresh).map Prod.snd).map TJob.id =
        (smartMerge prevMap fresh).map Prod.fst := by
      rw [List.map_map]
      exact List.map_congr_left (fun p hp => (hwf p hp).symm)
    have hnd2 : (((smartMerge prevMap fresh).map Prod.snd).map TJob.id).Nodup := by
      rw [hids]
      exact hnd
    have hperm :
        (((smartMerge prevMap fresh).map Prod.snd).map TJob.id).Perm
          ((publishJobs (smartMerge prevMap fresh)).map TJob.id) := by
      exact (List.Perm.map TJob.id (List.mergeSort_perm _ _)).symm
    exact hperm.nodup hnd2
  · intro prevMap l1 l2 job h2
    unfold smartMerge
    rw [List.foldl_append, List.foldl_cons,
      mergeFold_get_absent prevMap l2 _ job.id h2]
    unfold mergeStep
    cases jsGet prevMap job.id with
    | none => exact ⟨job, jsGet_jsSet_self _ _ _, rfl⟩
    | some e =>
        dsimp only
        cases hb : stringifyJob e != stringifyJob job with
        | true =>
            rw [if_pos rfl]
            exact ⟨job, jsGet_jsSet_self _ _ _, rfl⟩
        | false =>
            rw [if_neg Bool.false_ne_true]
            refine ⟨e, jsGet_jsSet_self _ _ _, ?_⟩
            simpa [bne] using hb

/-- Witness for C10: a fetched collection with a duplicated identity key
yields pairwise distinct published ids, and the survivor under the
duplicated key serializes like the last occurrence. -/
theorem claim_C10_witness :
    ((publishJobs (smartMerge samplePrevMap sampleDupFresh)).map TJob.id).Nodup ∧
    (∃ r, jsGet (smartMerge samplePrevMap
        ([{ ref := 7, id := "a", lastRun := 11, val := Json.str "x1" }] ++
          ({ ref := 8, id := "a", lastRun := 12, val := Json.str "x2" } : TJob) ::
            [{ ref := 9, id := "b", lastRun := 20, val := Json.str "y" }])) "a" = some r ∧
      stringifyJob r =
        stringifyJob { ref := 8, id := "a", lastRun := 12, val := Json.str "x2" }) := by
  constructor
  · exact claim_C10_published_ids_unique.1 samplePrevMap sampleDupFresh (by decide)
  · exact claim_C10_published_ids_unique.2 samplePrevMap
      [{ ref := 7, id := "a", lastRun := 11, val := Json.str "x1" }]
      [{ ref := 9, id := "b", lastRun := 20, val := Json.str "y" }]
      { ref := 8, id := "a", lastRun := 12, val := Json.str "x2" }
      (by simp)

/-- C5 fails on the code: in a cycle where ALL five sources fail, `fetchAll`
does NOT surface a user-facing error — it clears it (`setError(null)` runs
at the end of the `try` block, which completes normally) — and does NOT
preserve the last computed rows: the metrics map is rebuilt from scratch,
so the per-tenant rows come out zero-valued, different from the previously
computed rows. -/
theorem claim_C5_counterexample :
    fetchAll sampleOrgs sampleGlobalState true allRejectedInputs 99 =
      Except.ok { orgMetricsMap := [((7 : Int), zeroEntry)], error := none,
                  lastUpdated := some 99, loading := false } ∧
    orgRows sampleOrgs [((7 : Int), zeroEntry)] ≠
      orgRows sampleOrgs sampleGlobalState.orgMetricsMap := by
  constructor
  · rfl
  · intro h
    have h2 : ([rowOf sampleOrg1 zeroEntry, zeroRow sampleOrg2]).mergeSort
          (fun a b => decide (a.orgName ≤ b.orgName)) =
        ([rowOf sampleOrg1 { zeroEntry with alerts := 5, criticalAlerts := 2 },
          zeroRow sampleOrg2]).mergeSort
          (fun a b => decide (a.orgName ≤ b.orgName)) := h
    have hX : (([rowOf sampleOrg1 zeroEntry, zeroRow sampleOrg2]).mergeSort
          (fun a b => decide (a.orgName ≤ b.orgName))).Perm
        [rowOf sampleOrg1 { zeroEntry with alerts := 5, criticalAlerts := 2 },
         zeroRow sampleOrg2] := by
      rw [h2]
      exact List.mergeSort_perm _ _
    have hAB : ([rowOf sampleOrg1 zeroEntry, zeroRow sampleOrg2]).Perm
        [rowOf sampleOrg1 { zeroEntry with alerts := 5, criticalAlerts := 2 },
         zeroRow sampleOrg2] :=
      (List.mergeSort_perm _ _).symm.trans hX
    have hmem : rowOf sampleOrg1 { zeroEntry with alerts := 5, criticalAlerts := 2 } ∈
        ([rowOf sampleOrg1 zeroEntry, zeroRow sampleOrg2] : List OrgMetricsRow) :=
      hAB.mem_iff.mpr (by simp)
    exact absurd hmem (by decide)

/-- C5 amended: `fetchAll` never lets an exception escape; every cycle that
passes the early-return guard ends with `error = null` — so no error is
surfaced whether some or all sources fail — and a cycle in which every
source failed replaces the metrics map with the freshly zero-initialized
registry map (the previous rows are rebuilt as zeros, not preserved). -/
theorem claim_C5_all_failures_clear_error (orgs : List Organization) (s : GlobalState)
    (silent : Bool) (inp : GlobalFetchInputs) (now : Int) :
    (∃ st, fetchAll orgs s silent inp now = Except.ok st) ∧
    ((orgsWithClientId orgs).isEmpty = false →
      (∃ st, fetchAll orgs s silent inp now = Except.ok st ∧ st.error = none) ∧
      (allSourcesFailed inp →
        fetchAll orgs s silent inp now = Except.ok
          { orgMetricsMap := initOrgMap orgs, error := none, lastUpdated := some now,
            loading := if silent then s.loading else false })) := by
  obtain ⟨st, hst, herr⟩ := fetchAll_total orgs s silent inp now
  exact ⟨⟨st, hst⟩, fun hne =>
    ⟨⟨st, hst, (herr hne).1⟩,
     fun hf => fetchAll_allFailed orgs s silent inp now hne hf⟩⟩

/-- Witness for the amended C5 at a concrete registry, state and all-failed
inputs. -/
theorem claim_C5_witness :
    fetchAll sampleOrgs sampleGlobalState true allRejectedInputs 99 = Except.ok
      { orgMetricsMap := initOrgMap sampleOrgs, error := none, lastUpdated := some 99,
        loading := if true then sampleGlobalState.loading else false } :=
  ((claim_C5_all_failures_clear_error sampleOrgs sampleGlobalState true
      allRejectedInputs 99).2 (by decide)).2 ⟨rfl, rfl, rfl, rfl, rfl⟩

/-- C6.  First conjunct: after a cycle in which zero sources succeed, over
a registry of N organizations with distinct ids and distinct positive
client ids (at least one positive, else the cycle returns early),
`orgRows` has exactly N rows — one per registered organization — and every
counter of every row is 0.  Second conjunct (the general completeness
clause, with other sources free to succeed): any registered
positive-client organization that is absent from every source response of
the cycle — no accepted record of any source resolves to its client id —
still yields a zero-valued row of its own. -/
theorem claim_C6_zero_success_rows :
    (∀ (orgs : List Organization) (s : GlobalState) (silent : Bool)
        (inp : GlobalFetchInputs) (now : Int),
        (orgs.map Organization.id).Nodup →
        ((orgsWithClientId orgs).map (fun o => o.clientId)).Nodup →
        (orgsWithClientId orgs).isEmpty = false →
        allSourcesFailed inp →
        ∃ st, fetchAll orgs s silent inp now = Except.ok st ∧
          (orgRows orgs st.orgMetricsMap).length = orgs.length ∧
          ∀ row ∈ orgRows orgs st.orgMetricsMap,
            row.alerts = 0 ∧ row.activeAlerts = 0 ∧ row.criticalAlerts = 0 ∧
            row.hosts = 0 ∧ row.enabledHosts = 0 ∧ row.reports = 0 ∧ row.insights = 0 ∧
            row.veeamJobs = 0 ∧ row.veeamSuccess = 0 ∧ row.veeamFailed = 0) ∧
    (∀ (orgs : List Organization) (s : GlobalState) (silent : Bool)
        (inp : GlobalFetchInputs) (now : Int) (o : Organization),
        o ∈ orgs → 0 < o.clientId →
        ((orgsWithClientId orgs).map (fun x => x.clientId)).Nodup →
        clientAbsent inp o.clientId →
        ∃ st, fetchAll orgs s silent inp now = Except.ok st ∧
          ∃ row, row ∈ orgRows orgs st.orgMetricsMap ∧ row.orgId = o.id ∧
            row.alerts = 0 ∧ row.activeAlerts = 0 ∧ row.criticalAlerts = 0 ∧
            row.hosts = 0 ∧ row.enabledHosts = 0 ∧ row.reports = 0 ∧ row.insights = 0 ∧
            row.veeamJobs = 0 ∧ row.veeamSuccess = 0 ∧ row.veeamFailed = 0) := by
  constructor
  · intro orgs s silent inp now hids hcids hne hfail
    refine ⟨_, fetchAll_allFailed orgs s silent inp now hne hfail, ?_, ?_⟩
    · show (orgRows orgs (initOrgMap orgs)).length = orgs.length
      rw [orgRows_initOrgMap orgs hids hcids,
        (List.mergeSort_perm _ _).length_eq,
        List.length_append, List.length_map, List.length_map]
      exact length_filter_clientId orgs
    · show ∀ row ∈ orgRows orgs (initOrgMap orgs), _
      rw [orgRows_initOrgMap orgs hids hcids]
      intro row hrow
      have hrow2 := (List.mergeSort_perm _ _).mem_iff.mp hrow
      rcases List.mem_append.mp hrow2 with h1 | h2
      · obtain ⟨o, _, ho⟩ := List.mem_map.mp h1
        rw [← ho]
        simp [rowOf, zeroEntry]
      · obtain ⟨o, _, ho⟩ := List.mem_map.mp h2
        rw [← ho]
        simp [zeroRow]
  · intro orgs s silent inp now o ho hpos hcids habs
    have homem : o ∈ orgsWithClientId orgs := by
      unfold orgsWithClientId
      exact List.mem_filter.mpr ⟨ho, by simpa using hpos⟩
    have hne : (orgsWithClientId orgs).isEmpty = false := by
      cases hcase : orgsWithClientId orgs with
      | nil =>
          rw [hcase] at homem
          cases homem
      | cons a t => rfl
    obtain ⟨st, hst, hget⟩ := fetchAll_get_absent orgs s silent inp now o.clientId hne habs
    have hz : jsGet st.orgMetricsMap o.clientId = some zeroEntry := by
      rw [hget]
      exact initOrgMap_get_self orgs o homem hcids
    refine ⟨st, hst, rowOf o zeroEntry, ?_, ?_⟩
    · exact orgRows_mem_of_entry orgs st.orgMetricsMap o.clientId zeroEntry o
        (jsGet_mem hz) (clientIdToOrg_get_self orgs o homem hcids)
    · exact ⟨rfl, rfl, rfl, rfl, rfl, rfl, rfl, rfl, rfl, rfl, rfl⟩

/-- Witness for C6: the zero-success conjunct at the two-organization
registry with all-failed inputs, and the completeness conjunct at a
two-client registry in a cycle where the alerts source SUCCEEDS with a
record for client 7 while client 9's organization receives nothing and
still gets its zero row. -/
theorem claim_C6_witness :
    (∃ st, fetchAll sampleOrgs sampleGlobalState false allRejectedInputs 123 = Except.ok st ∧
      (orgRows sampleOrgs st.orgMetricsMap).length = sampleOrgs.length ∧
      ∀ row ∈ orgRows sampleOrgs st.orgMetricsMap,
        row.alerts = 0 ∧ row.activeAlerts = 0 ∧ row.criticalAlerts = 0 ∧
        row.hosts = 0 ∧ row.enabledHosts = 0 ∧ row.reports = 0 ∧ row.insights = 0 ∧
        row.veeamJobs = 0 ∧ row.veeamSuccess = 0 ∧ row.veeamFailed = 0) ∧
    (∃ st, fetchAll sampleOrgsTwoClients sampleGlobalState true partialInputs 7 =
        Except.ok st ∧
      ∃ row, row ∈ orgRows sampleOrgsTwoClients st.orgMetricsMap ∧
        row.orgId = sampleOrg3.id ∧
        row.alerts = 0 ∧ row.activeAlerts = 0 ∧ row.criticalAlerts = 0 ∧
        row.hosts = 0 ∧ row.enabledHosts = 0 ∧ row.reports = 0 ∧ row.insights = 0 ∧
        row.veeamJobs = 0 ∧ row.veeamSuccess = 0 ∧ row.veeamFailed = 0) := by
  constructor
  · exact claim_C6_zero_success_rows.1 sampleOrgs sampleGlobalState false allRejectedInputs 123
      (by decide) (by decide) (by decide) ⟨rfl, rfl, rfl, rfl, rfl⟩
  · refine claim_C6_zero_success_rows.2 sampleOrgsTwoClients sampleGlobalState true
      partialInputs 7 sampleOrg3 (by decide) (by decide) (by decide)
      ⟨?_, ?_, ?_, ?_, ?_⟩
    · intro items h
      have h0 : (Except.ok (some
            [Json.obj [("client_id", Json.num 7), ("severity", Json.str "critical")]]) :
          Except String (Option (List Json))) = Except.ok (some items) := h
      have h2 := Option.some.inj (Except.ok.inj h0)
      rw [← h2]
      intro a ha
      have ha2 : a = Json.obj [("client_id", Json.num 7), ("severity", Json.str "critical")] := by
        simpa using ha
      rw [ha2]
      decide
    · intro items h
      have h0 : (Except.ok none : Except String (Option (List Json))) =
          Except.ok (some items) := h
      exact Option.noConfusion (Except.ok.inj h0)
    · intro items h
      have h0 : (Except.ok none : Except String (Option (List Json))) =
          Except.ok (some items) := h
      exact Option.noConfusion (Except.ok.inj h0)
    · intro items h
      have h0 : (Except.ok none : Except String (Option (List Json))) =
          Except.ok (some items) := h
      exact Option.noConfusion (Except.ok.inj h0)
    · intro items h
      have h0 : (Except.ok none : Except String (Option (List Json))) =
          Except.ok (some items) := h
      exact Option.noConfusion (Except.ok.inj h0)

end NebulaGuard
